/-
  Verification of the gesetzessuche repository (German-law XML parser,
  citation parser and query engine) against its natural-language
  specification.

  Shallow embedding conventions:
  * Python strings are modelled as Lean `String` / `List Char`; the model
    covers the ASCII fragment of Python's text semantics (the character
    classes `[A-Z]`, `[a-z]`, `\d`, `\s` of `re`, `str.lower`, `str.strip`),
    which is the range exercised by the specification and the test-suite.
  * Python `None` becomes `Option.none`; Python truthiness of an optional
    string (`if x:`) is `optTruthy` below.
  * Fallible Python code (`int(...)`, attribute access that can raise)
    is embedded with `Except String`.
-/
import Mathlib

namespace Gesetzessuche

/-! ## Python string primitives (ASCII scope) -/

/-- Python's `\s` / `str.isspace` on the ASCII range:
space, tab, newline, carriage return, vertical tab, form feed. -/
def isPySpace (c : Char) : Bool :=
  c = ' ' || c = '\t' || c = '\n' || c = '\r' || c = '\x0b' || c = '\x0c'

/-- Truthiness of an optional Python string: `None` and `""` are falsy. -/
def optTruthy : Option String → Bool
  | some s => !s.isEmpty
  | none => false

/-- `str.strip()` on the ASCII range: drop leading whitespace. -/
def dropLeadingWs (cs : List Char) : List Char := cs.dropWhile isPySpace

/-- `str.strip()` on the ASCII range (both ends). -/
def pyStrip (cs : List Char) : List Char :=
  ((dropLeadingWs cs).reverse.dropWhile isPySpace).reverse

/-- `str.strip()` lifted to `String`. -/
def pyStripS (s : String) : String := (pyStrip s.toList).asString

/-- `str.lower()` on the ASCII range. -/
def pyLower (s : String) : String := (s.toList.map Char.toLower).asString

/-- `enbez.replace("§", "")`: a one-character pattern replaced by the empty
string removes every occurrence of that character. -/
def stripSign (cs : List Char) : List Char := cs.filter (fun c => c ≠ '§')

/-- `label.replace("§", "").strip()` — the normalization applied to paragraph
labels on both the query and the stored side
(models.py `Dokumente.find_paragraph`, search.py `LawSearch.find_paragraph`). -/
def normalizeLabel (s : String) : String := (pyStrip (stripSign s.toList)).asString

/-- Does `needle` occur at the head of `hay`? (`str.startswith` at one spot). -/
def matchesAt : List Char → List Char → Bool
  | [], _ => true
  | _ :: _, [] => false
  | n :: ns, h :: hs => n = h && matchesAt ns hs

/-- Python `str.find`: index of the leftmost occurrence of `needle` in `hay`
(`find("") = 0`), `none` when absent (`in` is `(findSub ..).isSome`). -/
def findSub (hay needle : List Char) : Option Nat :=
  if matchesAt needle hay then some 0
  else
    match hay with
    | [] => none
    | _ :: t => (findSub t needle).map (· + 1)

/-- Python slice `text[start:end]` for `0 ≤ start ≤ end`. -/
def pySlice (cs : List Char) (start stop : Nat) : List Char :=
  (cs.drop start).take (stop - start)

/-! ## `int(...)` (utils for search.py)

Python `int(str)` strips surrounding whitespace, accepts an optional sign
and a digit run in which single underscores may separate digits; anything
else raises `ValueError`. -/

/-- Digits possibly separated by single underscores, first char already
checked by the caller to be a digit. -/
def intTail : List Char → Bool
  | [] => true
  | c :: rest =>
    if c.isDigit then intTail rest
    else if c = '_' then
      match rest with
      | d :: rest2 => d.isDigit && intTail rest2
      | [] => false
    else false

def digitsVal (cs : List Char) : Nat :=
  cs.foldl (fun acc c => if c.isDigit then acc * 10 + (c.toNat - '0'.toNat) else acc) 0

/-- Unsigned digit run (with underscore separators) to value, `none` if the
run is not well-formed. -/
def parseUnsigned (cs : List Char) : Option Nat :=
  match cs with
  | [] => none
  | c :: rest => if c.isDigit && intTail rest then some (digitsVal (cs.filter (· ≠ '_'))) else none

/-- Python `int(s)`: `ValueError` is modelled as `Except.error`. -/
def pyInt (s : String) : Except String Int :=
  let cs := pyStrip s.toList
  match cs with
  | '+' :: rest =>
    match parseUnsigned rest with
    | some n => .ok (Int.ofNat n)
    | none => .error "ValueError: invalid literal for int()"
  | '-' :: rest =>
    match parseUnsigned rest with
    | some n => .ok (-(Int.ofNat n))
    | none => .error "ValueError: invalid literal for int()"
  | _ =>
    match parseUnsigned cs with
    | some n => .ok (Int.ofNat n)
    | none => .error "ValueError: invalid literal for int()"

/-! ## Reference parser (utils.py `parse_law_reference`)

The Python function runs `re.search` with `re.VERBOSE | re.IGNORECASE` on

```
(?:([A-Z][A-Za-z]*[A-Z]|[A-Z]{2,})\s+)?   # optional law code
(?:§|Artikel|Art\.?)\s*                   # paragraph marker
(\d+[a-z]?)                               # paragraph number
(?:\s+(?:Absatz|Abs\.?)\s+(\d+))?         # optional Absatz
(?:\s+(?:Nummer|Nr\.?)\s+(\d+))?          # optional Nummer
(?:\s+Buchstabe[n]?\s+([a-z]))?           # optional Buchstabe
(?:\s+Satz\s+(\d+))?                      # optional Satz
```

The embedding below hand-compiles this pattern, preserving the engine's
leftmost-position scan, the ordered alternations, and greedy backtracking.
Because of `re.IGNORECASE` every letter class (`[A-Z]`, `[A-Za-z]`,
`[a-z]`) matches any ASCII letter, and keywords match case-insensitively.

Backtracking notes justifying the deterministic compilation:
* law-code group: all three classes accept any letter, so the group can only
  match the maximal letter run at the position (ending anywhere shorter puts
  a letter under the following `\s+`, which fails); the run must have
  length ≥ 2 and be followed by whitespace; if the rest of the pattern then
  fails, the optional group is retried as absent at the same position;
* `\s+`/`\s*` are effectively maximal: every token that can follow them
  starts with a non-whitespace character;
* `Art\.?` / `Abs\.?` / `Nr\.?`: if the optional dot is present it is
  consumed; retrying without the dot cannot succeed, since the continuation
  then starts at `'.'`, which neither `\s` nor `\d` accepts;
* after the paragraph group the remaining groups are all optional, so a
  greedy choice inside one of them can never make the whole match fail. -/

/-- Parsed reference record (models.py `LawReference`).  The Python key
`section` is a Lean keyword, hence the field name `sectionNum`. -/
structure LawReference where
  law : Option String
  paragraph : String
  sectionNum : Option String
  number : Option String
  letter : Option String
  sentence : Option String
deriving Repr, DecidableEq

/-- Case-insensitive literal keyword match: `kw` is given in lowercase;
returns the rest of the input after the keyword. -/
def matchCI : List Char → List Char → Option (List Char)
  | [], cs => some cs
  | _ :: _, [] => none
  | k :: ks, c :: cs => if c.toLower = k then matchCI ks cs else none

/-- `\s+(\d+)` — mandatory whitespace, then a captured digit run. -/
def wsDigits (cs : List Char) : Option (List Char × List Char) :=
  match cs with
  | c :: rest =>
    if isPySpace c then
      let cs1 := rest.dropWhile isPySpace
      let ds := cs1.takeWhile Char.isDigit
      if ds.isEmpty then none else some (ds, cs1.drop ds.length)
    else none
  | [] => none

/-- Consume an optional literal `'.'` (the `\.?` of `Art\.?` etc.). -/
def dropDot (cs : List Char) : List Char :=
  match cs with
  | '.' :: rest => rest
  | _ => cs

/-- `(?:\s+(?:Absatz|Abs\.?)\s+(\d+))?` — the Absatz group; on failure the
whole group is absent and no input is consumed. -/
def absatzGroup (cs : List Char) : Option String × List Char :=
  match cs with
  | c :: rest =>
    if isPySpace c then
      let cs1 := rest.dropWhile isPySpace
      match matchCI "absatz".toList cs1 with
      | some cs2 =>
        match wsDigits cs2 with
        | some (ds, r) => (some ds.asString, r)
        | none =>
          -- the regex backtracks from `Absatz` to `Abs\.?`
          match matchCI "abs".toList cs1 with
          | some cs3 =>
            match wsDigits (dropDot cs3) with
            | some (ds, r) => (some ds.asString, r)
            | none => (none, cs)
          | none => (none, cs)
      | none =>
        match matchCI "abs".toList cs1 with
        | some cs3 =>
          match wsDigits (dropDot cs3) with
          | some (ds, r) => (some ds.asString, r)
          | none => (none, cs)
        | none => (none, cs)
    else (none, cs)
  | [] => (none, cs)

/-- `(?:\s+(?:Nummer|Nr\.?)\s+(\d+))?` — the Nummer group. -/
def nummerGroup (cs : List Char) : Option String × List Char :=
  match cs with
  | c :: rest =>
    if isPySpace c then
      let cs1 := rest.dropWhile isPySpace
      match matchCI "nummer".toList cs1 with
      | some cs2 =>
        match wsDigits cs2 with
        | some (ds, r) => (some ds.asString, r)
        | none =>
          match matchCI "nr".toList cs1 with
          | some cs3 =>
            match wsDigits (dropDot cs3) with
            | some (ds, r) => (some ds.asString, r)
            | none => (none, cs)
          | none => (none, cs)
      | none =>
        match matchCI "nr".toList cs1 with
        | some cs3 =>
          match wsDigits (dropDot cs3) with
          | some (ds, r) => (some ds.asString, r)
          | none => (none, cs)
        | none => (none, cs)
    else (none, cs)
  | [] => (none, cs)

/-- `\s+([a-z])` — under `IGNORECASE` the class accepts any ASCII letter;
the captured character keeps its original case. -/
def wsLetter (cs : List Char) : Option (Char × List Char) :=
  match cs with
  | c :: rest =>
    if isPySpace c then
      match rest.dropWhile isPySpace with
      | c2 :: r => if c2.isAlpha then some (c2, r) else none
      | [] => none
    else none
  | [] => none

/-- `(?:\s+Buchstabe[n]?\s+([a-z]))?` — greedy `[n]?` with its backtracking
retry. -/
def buchstabeGroup (cs : List Char) : Option String × List Char :=
  match cs with
  | c :: rest =>
    if isPySpace c then
      let cs1 := rest.dropWhile isPySpace
      match matchCI "buchstabe".toList cs1 with
      | some cs2 =>
        let withN : Option (Char × List Char) :=
          match cs2 with
          | n :: cs3 => if n.toLower = 'n' then wsLetter cs3 else none
          | [] => none
        match withN with
        | some (l, r) => (some (String.mk [l]), r)
        | none =>
          match wsLetter cs2 with
          | some (l, r) => (some (String.mk [l]), r)
          | none => (none, cs)
      | none => (none, cs)
    else (none, cs)
  | [] => (none, cs)

/-- `(?:\s+Satz\s+(\d+))?` — the Satz group. -/
def satzGroup (cs : List Char) : Option String × List Char :=
  match cs with
  | c :: rest =>
    if isPySpace c then
      let cs1 := rest.dropWhile isPySpace
      match matchCI "satz".toList cs1 with
      | some cs2 =>
        match wsDigits cs2 with
        | some (ds, r) => (some ds.asString, r)
        | none => (none, cs)
      | none => (none, cs)
    else (none, cs)
  | [] => (none, cs)

/-- `(\d+[a-z]?)` — the paragraph-number group: a maximal digit run plus an
optional letter (any ASCII letter, because of `IGNORECASE`). -/
def paraGroup (cs : List Char) : Option (List Char × List Char) :=
  let ds := cs.takeWhile Char.isDigit
  if ds.isEmpty then none
  else
    match cs.drop ds.length with
    | c :: rest => if c.isAlpha then some (ds ++ [c], rest) else some (ds, c :: rest)
    | [] => some (ds, [])

/-- The four optional trailing groups, applied in pattern order after the
paragraph group (each group consumes input only when it matches). -/
def buildRef (para rest : List Char) : LawReference :=
  { law := none
    paragraph := para.asString
    sectionNum := (absatzGroup rest).1
    number := (nummerGroup (absatzGroup rest).2).1
    letter := (buchstabeGroup (nummerGroup (absatzGroup rest).2).2).1
    sentence := (satzGroup (buchstabeGroup (nummerGroup (absatzGroup rest).2).2).2).1 }

/-- `\s*` then the paragraph group and the four optional trailing groups;
`law` is filled in by the caller. -/
def afterMarker (cs : List Char) : Option LawReference :=
  match paraGroup (cs.dropWhile isPySpace) with
  | none => none
  | some pr => some (buildRef pr.1 pr.2)

/-- The `§` alternative of the paragraph marker. -/
def signAttempt (cs : List Char) : Option LawReference :=
  match cs with
  | '§' :: rest => afterMarker rest
  | _ => none

/-- `(?:§|Artikel|Art\.?)` followed by the rest of the pattern, with the
regex engine's ordered alternation (a later alternative is tried when an
earlier one matches but the continuation fails). -/
def matchMarker (cs : List Char) : Option LawReference :=
  match signAttempt cs with
  | some r => some r
  | none =>
    match (matchCI "artikel".toList cs).bind afterMarker with
    | some r => some r
    | none => (matchCI "art".toList cs).bind (fun rest => afterMarker (dropDot rest))

/-- The optional law-code group followed by the rest of the pattern:
the group can only capture the maximal ASCII-letter run at the position
(length ≥ 2, followed by whitespace) — see the backtracking notes above. -/
def lawAttempt (cs : List Char) : Option LawReference :=
  if 2 ≤ (cs.takeWhile Char.isAlpha).length then
    match cs.drop (cs.takeWhile Char.isAlpha).length with
    | c :: rest =>
      if isPySpace c then
        match matchMarker (rest.dropWhile isPySpace) with
        | some r => some { r with law := some (cs.takeWhile Char.isAlpha).asString }
        | none => none
      else none
    | [] => none
  else none

/-- One attempt of the full pattern at a fixed position: first with the
optional law-code group (greedy `?`), then without it. -/
def matchAt (cs : List Char) : Option LawReference :=
  match lawAttempt cs with
  | some r => some r
  | none => matchMarker cs

/-- `re.search`: scan start positions left to right, first success wins. -/
def searchRef : List Char → Option LawReference
  | [] => matchAt []
  | c :: rest =>
    match matchAt (c :: rest) with
    | some r => some r
    | none => searchRef rest

/-- utils.py `parse_law_reference`. -/
def parse_law_reference (reference : String) : Option LawReference :=
  searchRef reference.toList

/-! ## Content tree model (models.py)

The Pydantic models are embedded as one mutual inductive family;
`ContentElement` is the `Union` of node variants.  String-literal-typed
fields (`Literal["ja","nein"]` etc.) are embedded as `String`/`Option
String` whose values are constrained by the parser's guards, exactly as in
the source.  Two field renamings forced by Lean: `class` → `cls` (following
the source's own Pydantic alias) and the `Footnote`/`Revision` fields
`prefix`/`postfix` → `prefixAttr`/`postfixAttr`. -/

structure IMG where
  src : String
  alt : Option String
  title : Option String
  orient : Option String
  pos : Option String
  align : Option String
  size : Option String
  width : Option String
  height : Option String
  units : Option String
  type : Option String
deriving DecidableEq, Repr

structure FILE where
  src : String
  preview : Option String
  type : Option String
  title : Option String
deriving DecidableEq, Repr

structure DT where
  id : Option String
  text : Option String
deriving DecidableEq, Repr

structure FnR where
  id : String
deriving DecidableEq, Repr

structure FnArea where
  line : String
  size : String
  fn_refs : List FnR
deriving DecidableEq, Repr

structure Kommentar where
  typ : String
  text : Option String
deriving DecidableEq, Repr

structure Pre where
  text : Option String
deriving DecidableEq, Repr

structure Colspec where
  colname : Option String
  colnum : Option Int
  colwidth : Option String
  align : Option String
  colsep : Option String
  rowsep : Option String
deriving DecidableEq, Repr

mutual
inductive ContentElement where
  | text (s : String)
  | p (v : P)
  | dl (v : DL)
  | table (v : Table)
  | img (v : IMG)
  | file (v : FILE)
  | fnArea (v : FnArea)
  | toc (v : TOC)
  | kommentar (v : Kommentar)
  | pre (v : Pre)
  | format (v : FormatElement)
  | revision (v : Revision)

inductive P where
  | mk (id : Option String) (content : List ContentElement) (raw_text : Option String)

inductive LA where
  | mk (id : Option String) (size : Option String) (value : Option String)
       (text : Option String) (children : List ContentElement)

inductive DD where
  | mk (id : Option String) (la : Option LA) (revisions : List Revision)

inductive DLItem where
  | mk (dt : DT) (dd : DD)

inductive DL where
  | mk (id : Option String) (indent : Option String) (font : Option String)
       (type : Option String) (items : List DLItem)

inductive Entry where
  | mk (id : Option String) (align : Option String) (valign : Option String)
       (colname : Option String) (namest : Option String) (nameend : Option String)
       (morerows : Option Int) (colsep : Option String) (rowsep : Option String)
       (content : List ContentElement)

inductive Row where
  | mk (id : Option String) (rowsep : Option String) (valign : Option String)
       (entries : List Entry)

inductive THead where
  | mk (rows : List Row)

inductive TBody where
  | mk (rows : List Row)

inductive TFoot where
  | mk (rows : List Row)

inductive TGroup where
  | mk (cols : Int) (colspecs : List Colspec) (thead : Option THead)
       (tbody : TBody) (tfoot : Option TFoot)

inductive Table where
  | mk (id : Option String) (frame : Option String) (colsep : Option String)
       (rowsep : Option String) (title : Option String) (tgroups : List TGroup)

inductive TOC where
  | mk (id : Option String) (content : List ContentElement)

inductive FormatElement where
  | mk (tag : String) (id : Option String) (cls : Option String)
       (text : Option String) (children : List ContentElement)

inductive Revision where
  | mk (id : Option String) (postfixAttr : Option String)
       (content : List ContentElement)

inductive Footnote where
  | mk (id : String) (prefixAttr : Option String) (fn_z : Option String)
       (postfixAttr : Option String) (pos : Option String) (group : Option String)
       (content : List ContentElement)
end

def P.id : P → Option String
  | .mk i _ _ => i

def P.content : P → List ContentElement
  | .mk _ c _ => c

def P.raw_text : P → Option String
  | .mk _ _ r => r

def LA.text : LA → Option String
  | .mk _ _ _ t _ => t

def LA.children : LA → List ContentElement
  | .mk _ _ _ _ ch => ch

def DD.la : DD → Option LA
  | .mk _ l _ => l

def DD.revisions : DD → List Revision
  | .mk _ _ r => r

def DLItem.dt : DLItem → DT
  | .mk d _ => d

def DLItem.dd : DLItem → DD
  | .mk _ d => d

def DL.items : DL → List DLItem
  | .mk _ _ _ _ it => it

def TOC.content : TOC → List ContentElement
  | .mk _ c => c

def FormatElement.text : FormatElement → Option String
  | .mk _ _ _ t _ => t

def FormatElement.children : FormatElement → List ContentElement
  | .mk _ _ _ _ ch => ch

def Revision.content : Revision → List ContentElement
  | .mk _ _ c => c

structure Footnotes where
  footnotes : List Footnote

structure Content where
  id : Option String
  elements : List ContentElement
  raw_text : Option String

structure Text where
  format : Option String
  toc : Option TOC
  content : Option Content
  footnotes : Option Footnotes

structure Fussnoten where
  format : Option String
  toc : Option TOC
  content : Option Content
  footnotes : Option Footnotes

structure Textdaten where
  text : Option Text
  fussnoten : Option Fussnoten

/-! Metadata model (models.py). -/

structure Anlageabgabe where
  anlagedat : Option String
  dokst : Option String
  abgabedat : Option String
deriving DecidableEq, Repr

structure Fundstelle where
  typ : Option String
  periodikum : Option String
  zitstelle : Option String
  anlageabgabe : Option Anlageabgabe
deriving DecidableEq, Repr

structure Standangabe where
  checked : Option String
  standtyp : Option String
  standkommentar : Option String
deriving DecidableEq, Repr

structure Gliederungseinheit where
  gliederungskennzahl : Option String
  gliederungsbez : Option String
  gliederungstitel : Option String
deriving DecidableEq, Repr

/-- A `datetime.date` value (`_parse_date` validates the calendar). -/
structure PyDate where
  year : Nat
  month : Nat
  day : Nat
deriving DecidableEq, Repr

structure AusfertigungsDatum where
  manuell : String
  datum : Option PyDate
deriving DecidableEq, Repr

structure Metadaten where
  jurabk : List String
  amtabk : Option String
  ausfertigung_datum : Option AusfertigungsDatum
  fundstelle : List Fundstelle
  kurzue : Option String
  langue : Option String
  standangabe : List Standangabe
  enbez : Option String
  titel : Option String
  gliederungseinheit : Option Gliederungseinheit

structure Norm where
  builddate : Option String
  doknr : Option String
  metadaten : Option Metadaten
  textdaten : Option Textdaten

structure Dokumente where
  builddate : Option String
  doknr : Option String
  normen : List Norm

/-- models.py `SearchResult` (TypedDict). -/
structure SearchResult where
  paragraph : String
  title : String
  context : String
deriving Repr, DecidableEq

/-! ## Generic element trees (`xml.etree.ElementTree`)

An `Xml` node carries its tag, attribute map, leading text, children and
tail text (the text between its end tag and the next sibling), which is
all of the `ET.Element` interface the parser uses. -/

inductive Xml where
  | mk (tag : String) (attrs : List (String × String)) (text : Option String)
       (children : List Xml) (tail : Option String)

def Xml.tag : Xml → String
  | .mk t _ _ _ _ => t

def Xml.attrs : Xml → List (String × String)
  | .mk _ a _ _ _ => a

def Xml.text : Xml → Option String
  | .mk _ _ tx _ _ => tx

def Xml.children : Xml → List Xml
  | .mk _ _ _ ch _ => ch

def Xml.tail : Xml → Option String
  | .mk _ _ _ _ tl => tl

/-- `elem.get(name)`: attribute lookup (attribute keys are unique). -/
def Xml.getAttr (e : Xml) (name : String) : Option String :=
  (e.attrs.find? (fun a => a.1 = name)).map (fun a => a.2)

/-- `elem.find(tag)`: first direct child with the given tag. -/
def Xml.find (e : Xml) (t : String) : Option Xml :=
  e.children.find? (fun c => c.tag = t)

/-- `elem.findall(tag)`: all direct children with the given tag. -/
def Xml.findall (e : Xml) (t : String) : List Xml :=
  e.children.filter (fun c => c.tag = t)

/-- parser.py `_get_attr`: first of several attribute-name variants whose
value is truthy. -/
def getAttrMulti (e : Xml) : List String → Option String
  | [] => none
  | n :: rest =>
    match e.getAttr n with
    | some v => if v.isEmpty then getAttrMulti e rest else some v
    | none => getAttrMulti e rest

/-- parser.py `_get_text`: `child.text.strip() if child is not None and
child.text else None`. -/
def getText (e : Xml) (t : String) : Option String :=
  match e.find t with
  | some c =>
    match c.text with
    | some s => if s.isEmpty then none else some (pyStripS s)
    | none => none
  | none => none

/-- parser.py `_get_all_text`: stripped text of every child with the tag,
keeping only entries whose text and stripped text are truthy. -/
def getAllText (e : Xml) (t : String) : List String :=
  (e.findall t).filterMap fun c =>
    match c.text with
    | some s =>
      if s.isEmpty then none
      else if (pyStripS s).isEmpty then none else some (pyStripS s)
    | none => none

/-! ## Whitespace normalization (parser.py `_normalize_whitespace`) -/

/-- `text.replace("\r\n", " ")` — non-overlapping, left to right. -/
def replaceCRLF : List Char → List Char
  | [] => []
  | c :: rest =>
    if c = '\r' then
      match rest with
      | [] => [c]
      | d :: rest2 =>
        if d = '\n' then ' ' :: replaceCRLF rest2
        else c :: replaceCRLF (d :: rest2)
    else c :: replaceCRLF rest

/-- The three single-character replacements `\r`, `\n`, `\t` → space. -/
def breakToSpace (c : Char) : Char :=
  if c = '\r' ∨ c = '\n' ∨ c = '\t' then ' ' else c

mutual
/-- `while "  " in text: text = text.replace("  ", " ")` — the loop's
fixpoint collapses every run of spaces to a single space, which this
computes in one pass. -/
def collapseSpaces : List Char → List Char
  | [] => []
  | c :: rest => if c = ' ' then ' ' :: collapseGap rest else c :: collapseSpaces rest

def collapseGap : List Char → List Char
  | [] => []
  | c :: rest => if c = ' ' then collapseGap rest else c :: collapseSpaces rest
end

def normalizeWs (cs : List Char) : List Char :=
  collapseSpaces ((replaceCRLF cs).map breakToSpace)

/-- parser.py `_normalize_whitespace` on `String`. -/
def normalizeWsS (s : String) : String := (normalizeWs s.toList).asString

/-! ## Raw text extraction (parser.py `_extract_raw_text`) -/

/-- Is this child the elided superscript reference marker
(`SUP` with `class="Rec"` in either capitalization)? -/
def isSupRec (child : Xml) : Bool :=
  child.tag = "SUP" &&
    (child.getAttr "class" = some "Rec" || child.getAttr "Class" = some "Rec")

mutual
/-- `" ".join(text.split())` — split on whitespace runs, join with single
spaces (state: no pending separator). -/
def squashWs : List Char → List Char
  | [] => []
  | c :: rest => if isPySpace c then squashDrop rest else c :: squashIn rest

/-- Inside a word. -/
def squashIn : List Char → List Char
  | [] => []
  | c :: rest => if isPySpace c then squashGapWs rest else c :: squashIn rest

/-- In a whitespace gap after at least one word: emit one space if another
word follows. -/
def squashGapWs : List Char → List Char
  | [] => []
  | c :: rest => if isPySpace c then squashGapWs rest else ' ' :: c :: squashIn rest

/-- Leading whitespace before the first word. -/
def squashDrop : List Char → List Char
  | [] => []
  | c :: rest => if isPySpace c then squashDrop rest else c :: squashIn rest
end

/-- `if x: parts.append(x)` for an optional text/tail fragment. -/
def truthyParts : Option String → List String
  | some s => if s.isEmpty then [] else [s]
  | none => []

mutual
/-- parser.py `_extract_raw_text`: recursively collect `text`, child texts
and `tail`s (skipping `SUP class="Rec"` elements but keeping their tails),
join with spaces, re-split/join on whitespace (`" ".join(text.split())`),
strip. -/
def extractRawText (e : Xml) : String :=
  match e with
  | .mk _ _ tx ch _ =>
    (pyStrip (squashWs
      (String.intercalate " " (truthyParts tx ++ rawChildParts ch)).toList)).asString

def rawChildParts : List Xml → List String
  | [] => []
  | child :: rest =>
    (if isSupRec child then truthyParts child.tail
     else [extractRawText child] ++ truthyParts child.tail) ++ rawChildParts rest
end

/-! ## Non-recursive element parsers (parser.py) -/

/-- `int(attr)` in contexts where the schema guarantees a numeric attribute
(table `cols`, `colnum`, `morerows`).  A malformed value would raise
`ValueError` in Python; that is outside the modeled input range and mapped
to 0 here (no claim concerns table attribute parsing). -/
def pyIntFallback (s : String) : Int := (pyInt s).toOption.getD 0

def parse_img (e : Xml) : IMG :=
  { src := (e.getAttr "SRC").getD "", alt := e.getAttr "alt",
    title := e.getAttr "title", orient := e.getAttr "orient",
    pos := e.getAttr "Pos", align := e.getAttr "Align",
    size := e.getAttr "Size", width := e.getAttr "Width",
    height := e.getAttr "Height", units := e.getAttr "Units",
    type := e.getAttr "Type" }

def parse_file_element (e : Xml) : FILE :=
  { src := (e.getAttr "SRC").getD "", preview := e.getAttr "PREVIEW",
    type := e.getAttr "Type", title := e.getAttr "title" }

def parse_fnr (e : Xml) : FnR :=
  { id := (e.getAttr "ID").getD "" }

def parse_fnarea (e : Xml) : FnArea :=
  { line :=
      (match e.getAttr "Line" with
       | some s => if s = "0" ∨ s = "1" then s else "1"
       | none => "1"),
    size :=
      (match e.getAttr "Size" with
       | some s => if s = "normal" ∨ s = "large" ∨ s = "small" then s else "normal"
       | none => "normal"),
    fn_refs := (e.findall "FnR").map parse_fnr }

def parse_kommentar (e : Xml) : Kommentar :=
  { typ :=
      (match e.getAttr "typ" with
       | some s =>
         if s = "Stand" ∨ s = "Stand-Hinweis" ∨ s = "Hinweis" ∨ s = "Fundstelle" ∨
            s = "Verarbeitung" then s else "Hinweis"
       | none => "Hinweis"),
    text := e.text }

def parse_pre (e : Xml) : Pre :=
  { text := some (extractRawText e) }

def parse_dt (e : Xml) : DT :=
  { id := e.getAttr "ID", text := some (extractRawText e) }

def parse_colspec (e : Xml) : Colspec :=
  { colname := e.getAttr "colname",
    colnum :=
      (match e.getAttr "colnum" with
       | some s => if s.isEmpty then none else some (pyIntFallback s)
       | none => none),
    colwidth := e.getAttr "colwidth", align := e.getAttr "align",
    colsep := e.getAttr "colsep", rowsep := e.getAttr "rowsep" }

/-- Step 1 of `parse_content_elements`: leading text, normalized, stripped
as a whole block, emitted as a `Text` node if non-empty. -/
def leadingText (tx : Option String) : List ContentElement :=
  match tx with
  | some s =>
    if s.isEmpty then []
    else
      if (pyStripS (normalizeWsS s)).isEmpty then []
      else [.text (pyStripS (normalizeWsS s))]
  | none => []

/-- Step 3 of `parse_content_elements`: the child's tail text, normalized;
appended as a `Text` node unless empty or exactly a single space. -/
def tailNodes (child : Xml) : List ContentElement :=
  match child.tail with
  | some t =>
    if t.isEmpty then []
    else
      if (normalizeWsS t).isEmpty then []
      else if normalizeWsS t = " " then []
      else [.text (normalizeWsS t)]
  | none => []

/-- The fixed inline-formatting tag set of the dispatch. -/
def isFormatTag (t : String) : Bool :=
  t = "B" || t = "I" || t = "U" || t = "SUP" || t = "SUB" || t = "SP" ||
    t = "small" || t = "Citation"

/-! Size lemmas for the parser's well-founded recursion. -/

theorem Xml.sizeOf_children_lt (e : Xml) : sizeOf e.children < sizeOf e := by
  cases e with
  | mk t a tx ch tl => simp [Xml.children]; omega

theorem sizeOf_filter_le (p : Xml → Bool) (l : List Xml) :
    sizeOf (l.filter p) ≤ sizeOf l := by
  induction l with
  | nil => simp
  | cons c rest ih =>
    rw [List.filter_cons]
    by_cases h : p c = true
    · rw [if_pos h]
      simp only [List.cons.sizeOf_spec]
      omega
    · rw [if_neg h]
      simp only [List.cons.sizeOf_spec]
      omega

theorem sizeOf_find?_lt {p : Xml → Bool} {l : List Xml} {x : Xml}
    (h : l.find? p = some x) : sizeOf x < sizeOf l :=
  List.sizeOf_lt_of_mem (List.mem_of_find?_eq_some h)

theorem sizeOf_find_lt {e : Xml} {t : String} {x : Xml}
    (h : e.find t = some x) : sizeOf x < sizeOf e := by
  have h2 : e.children.find? (fun c => c.tag = t) = some x := h
  exact lt_trans (sizeOf_find?_lt h2) (Xml.sizeOf_children_lt e)

theorem sizeOf_findall_lt (e : Xml) (t : String) :
    sizeOf (e.findall t) < sizeOf e :=
  lt_of_le_of_lt (sizeOf_filter_le _ _) (Xml.sizeOf_children_lt e)

theorem Xml.one_le_sizeOf (e : Xml) : 1 ≤ sizeOf e := by
  cases e with
  | mk tg a tx ch tl => simp; omega

theorem sizeOf_findOpt_le (e : Xml) (t : String) : sizeOf (e.find t) ≤ sizeOf e := by
  cases h : e.find t with
  | none =>
    have := Xml.one_le_sizeOf e
    simp
    omega
  | some x =>
    have := sizeOf_find_lt h
    simp
    omega

/-! ## The recursive content parser (parser.py)

The mutual recursion mirrors the Python call graph; the measure
`sizeOf · * 8 + weight` orders same-argument calls between the mutually
recursive functions. -/

mutual
/-- parser.py `parse_content_elements`. -/
def parse_content_elements (e : Xml) : List ContentElement :=
  match e with
  | .mk _ _ tx ch _ => leadingText tx ++ parseChildList ch
termination_by sizeOf e * 8

/-- The `for child in elem` loop of `parse_content_elements`: dispatch each
child, then append its tail nodes. -/
def parseChildList : (cs : List Xml) → List ContentElement
  | [] => []
  | child :: rest => childNodes child ++ tailNodes child ++ parseChildList rest
termination_by cs => sizeOf cs * 8 + 1

/-- The tag dispatch of `parse_content_elements`, in source order. -/
def childNodes (child : Xml) : List ContentElement :=
  if isSupRec child then []
  else if child.tag = "P" then [.p (parse_p child)]
  else if child.tag = "DL" then [.dl (parse_dl child)]
  else if child.tag = "table" then [.table (parse_table child)]
  else if child.tag = "IMG" then [.img (parse_img child)]
  else if child.tag = "FILE" then [.file (parse_file_element child)]
  else if child.tag = "FnArea" then [.fnArea (parse_fnarea child)]
  else if child.tag = "TOC" then [.toc (parse_toc child)]
  else if child.tag = "kommentar" then [.kommentar (parse_kommentar child)]
  else if child.tag = "pre" then [.pre (parse_pre child)]
  else if child.tag = "Revision" then [.revision (parse_revision child)]
  else if isFormatTag child.tag then [.format (parse_format_element child)]
  else if child.tag = "BR" then [.text "\n"]
  else if (extractRawText child).isEmpty then []
  else [.text (extractRawText child)]
termination_by sizeOf child * 8 + 5

/-- parser.py `parse_p`. -/
def parse_p (e : Xml) : P :=
  .mk (e.getAttr "ID") (parse_content_elements e) (some (extractRawText e))
termination_by sizeOf e * 8 + 1

/-- parser.py `parse_dl`. -/
def parse_dl (e : Xml) : DL :=
  .mk (getAttrMulti e ["ID", "Id", "id"]) (e.getAttr "Indent") (e.getAttr "Font")
      (e.getAttr "Type") (dlScan e.children none)
termination_by sizeOf e * 8 + 2
decreasing_by
  have := Xml.sizeOf_children_lt e
  simp_wf
  omega

/-- The `DT`/`DD` pairing loop of `parse_dl`: a `DT` sets the pending term,
a `DD` with a pending term forms one item and clears it; everything else is
dropped with the pending term unchanged. -/
def dlScan : (cs : List Xml) → Option DT → List DLItem
  | [], _ => []
  | child :: rest, cur =>
    if child.tag = "DT" then dlScan rest (some (parse_dt child))
    else if child.tag = "DD" then
      match cur with
      | some dt => DLItem.mk dt (parse_dd child) :: dlScan rest none
      | none => dlScan rest cur
    else dlScan rest cur
termination_by cs _ => sizeOf cs * 8 + 1

/-- parser.py `parse_dd`. -/
def parse_dd (e : Xml) : DD :=
  .mk (e.getAttr "ID") (parseLAOpt (e.find "LA"))
      (parseRevisionList (e.findall "Revision"))
termination_by sizeOf e * 8 + 3
decreasing_by
  all_goals simp_wf
  all_goals first
    | (have h := sizeOf_findOpt_le e "LA"; omega)
    | (have h := sizeOf_findall_lt e "Revision"; omega)

/-- `self.parse_la(la_elem) if la_elem is not None else None`. -/
def parseLAOpt : (o : Option Xml) → Option LA
  | some laElem => some (parse_la laElem)
  | none => none
termination_by o => sizeOf o * 8 + 2

/-- parser.py `parse_la`. -/
def parse_la (e : Xml) : LA :=
  .mk (e.getAttr "ID")
      (match e.getAttr "Size" with
       | some s => if s = "normal" ∨ s = "small" ∨ s = "tiny" then some s else none
       | none => none)
      (e.getAttr "Value")
      (if e.children.isEmpty then some (extractRawText e) else none)
      (if e.children.isEmpty then [] else parse_content_elements e)
termination_by sizeOf e * 8 + 1

/-- `[self.parse_revision(r) for r in elem.findall("Revision")]`. -/
def parseRevisionList : (cs : List Xml) → List Revision
  | [] => []
  | c :: rest => parse_revision c :: parseRevisionList rest
termination_by cs => sizeOf cs * 8 + 1

/-- parser.py `parse_revision`. -/
def parse_revision (e : Xml) : Revision :=
  .mk (e.getAttr "ID") (e.getAttr "Postfix") (parse_content_elements e)
termination_by sizeOf e * 8 + 1

/-- parser.py `parse_toc`. -/
def parse_toc (e : Xml) : TOC :=
  .mk (e.getAttr "ID") (parse_content_elements e)
termination_by sizeOf e * 8 + 1

/-- parser.py `parse_format_element`. -/
def parse_format_element (e : Xml) : FormatElement :=
  .mk e.tag (getAttrMulti e ["ID", "Id", "id"]) (getAttrMulti e ["Class", "class"])
      e.text (parse_content_elements e)
termination_by sizeOf e * 8 + 1

/-- parser.py `parse_table`. -/
def parse_table (e : Xml) : Table :=
  .mk (getAttrMulti e ["ID", "Id", "id"]) (e.getAttr "frame") (e.getAttr "colsep")
      (e.getAttr "rowsep")
      (match e.find "Title" with
       | some t => t.text
       | none => none)
      (parseTGroupList (e.findall "tgroup"))
termination_by sizeOf e * 8 + 1
decreasing_by
  have := sizeOf_findall_lt e "tgroup"
  simp_wf
  omega

def parseTGroupList : (cs : List Xml) → List TGroup
  | [] => []
  | c :: rest => parse_tgroup c :: parseTGroupList rest
termination_by cs => sizeOf cs * 8 + 1

/-- parser.py `parse_tgroup`. -/
def parse_tgroup (e : Xml) : TGroup :=
  .mk (pyIntFallback ((e.getAttr "cols").getD "1"))
      ((e.findall "colspec").map parse_colspec)
      (parseTHeadOpt (e.find "thead"))
      (parseTBodyOrEmpty (e.find "tbody"))
      (parseTFootOpt (e.find "tfoot"))
termination_by sizeOf e * 8 + 3
decreasing_by
  all_goals simp_wf
  all_goals first
    | (have h := sizeOf_findOpt_le e "thead"; omega)
    | (have h := sizeOf_findOpt_le e "tbody"; omega)
    | (have h := sizeOf_findOpt_le e "tfoot"; omega)

/-- `self.parse_thead(thead_elem) if thead_elem is not None else None`. -/
def parseTHeadOpt : (o : Option Xml) → Option THead
  | some th => some (parse_thead th)
  | none => none
termination_by o => sizeOf o * 8 + 2

/-- When `tbody` is absent the source substitutes a fresh empty
`ET.Element("tbody")`, whose parse is `TBody.mk []`. -/
def parseTBodyOrEmpty : (o : Option Xml) → TBody
  | some tb => parse_tbody tb
  | none => TBody.mk []
termination_by o => sizeOf o * 8 + 2

/-- `self.parse_tfoot(tfoot_elem) if tfoot_elem is not None else None`. -/
def parseTFootOpt : (o : Option Xml) → Option TFoot
  | some tf => some (parse_tfoot tf)
  | none => none
termination_by o => sizeOf o * 8 + 2

/-- parser.py `parse_thead`. -/
def parse_thead (e : Xml) : THead :=
  .mk (parseRowList (e.findall "row"))
termination_by sizeOf e * 8 + 1
decreasing_by
  have := sizeOf_findall_lt e "row"
  simp_wf
  omega

/-- parser.py `parse_tbody`. -/
def parse_tbody (e : Xml) : TBody :=
  .mk (parseRowList (e.findall "row"))
termination_by sizeOf e * 8 + 1
decreasing_by
  have := sizeOf_findall_lt e "row"
  simp_wf
  omega

/-- parser.py `parse_tfoot`. -/
def parse_tfoot (e : Xml) : TFoot :=
  .mk (parseRowList (e.findall "row"))
termination_by sizeOf e * 8 + 1
decreasing_by
  have := sizeOf_findall_lt e "row"
  simp_wf
  omega

def parseRowList : (cs : List Xml) → List Row
  | [] => []
  | c :: rest => parse_row c :: parseRowList rest
termination_by cs => sizeOf cs * 8 + 1

/-- parser.py `parse_row`. -/
def parse_row (e : Xml) : Row :=
  .mk (e.getAttr "ID") (e.getAttr "rowsep") (e.getAttr "valign")
      (parseEntryList (e.findall "entry"))
termination_by sizeOf e * 8 + 1
decreasing_by
  have := sizeOf_findall_lt e "entry"
  simp_wf
  omega

def parseEntryList : (cs : List Xml) → List Entry
  | [] => []
  | c :: rest => parse_entry c :: parseEntryList rest
termination_by cs => sizeOf cs * 8 + 1

/-- parser.py `parse_entry`. -/
def parse_entry (e : Xml) : Entry :=
  .mk (e.getAttr "ID") (e.getAttr "align") (e.getAttr "valign") (e.getAttr "colname")
      (e.getAttr "namest") (e.getAttr "nameend")
      (match e.getAttr "morerows" with
       | some s => if s.isEmpty then none else some (pyIntFallback s)
       | none => none)
      (e.getAttr "colsep") (e.getAttr "rowsep") (parse_content_elements e)
termination_by sizeOf e * 8 + 1
end

/-! ## Norm-level parsers (parser.py) -/

def parse_footnote (e : Xml) : Footnote :=
  .mk ((e.getAttr "ID").getD "") (e.getAttr "Prefix") (e.getAttr "FnZ")
      (e.getAttr "Postfix") (e.getAttr "Pos") (e.getAttr "Group")
      (parse_content_elements e)

def parse_footnotes (e : Xml) : Footnotes :=
  { footnotes := (e.findall "Footnote").map parse_footnote }

def parse_content (e : Xml) : Content :=
  { id := e.getAttr "ID", elements := parse_content_elements e,
    raw_text := some (extractRawText e) }

def parse_text (e : Xml) : Text :=
  { format := e.getAttr "format",
    toc := (e.find "TOC").map parse_toc,
    content := (e.find "Content").map parse_content,
    footnotes := (e.find "Footnotes").map parse_footnotes }

def parse_fussnoten (e : Xml) : Fussnoten :=
  { format := e.getAttr "format",
    toc := (e.find "TOC").map parse_toc,
    content := (e.find "Content").map parse_content,
    footnotes := (e.find "Footnotes").map parse_footnotes }

def parse_textdaten (e : Xml) : Textdaten :=
  { text := (e.find "text").map parse_text,
    fussnoten := (e.find "fussnoten").map parse_fussnoten }

/-! ## Metadata parsers (parser.py) -/

def parse_anlageabgabe (e : Xml) : Anlageabgabe :=
  { anlagedat := getText e "anlagedat", dokst := getText e "dokst",
    abgabedat := getText e "abgabedat" }

/-- parser.py `parse_fundstelle` (applied to non-`None` elements; the
source's `None` guard cannot fire under `findall`). -/
def parse_fundstelle (e : Xml) : Fundstelle :=
  { typ :=
      (match e.getAttr "typ" with
       | some s => if s = "amtlich" ∨ s = "nichtamtlich" then some s else none
       | none => none),
    periodikum := getText e "periodikum", zitstelle := getText e "zitstelle",
    anlageabgabe := (e.find "anlageabgabe").map parse_anlageabgabe }

def parse_standangabe (e : Xml) : Standangabe :=
  { checked :=
      (match e.getAttr "checked" with
       | some s => if s = "ja" ∨ s = "nein" then some s else none
       | none => none),
    standtyp := getText e "standtyp", standkommentar := getText e "standkommentar" }

def parse_gliederungseinheit (e : Xml) : Gliederungseinheit :=
  { gliederungskennzahl := getText e "gliederungskennzahl",
    gliederungsbez := getText e "gliederungsbez",
    gliederungstitel := getText e "gliederungstitel" }

def isLeap (y : Nat) : Bool :=
  (y % 4 = 0 && y % 100 ≠ 0) || y % 400 = 0

def daysInMonth (y m : Nat) : Nat :=
  if m = 2 then (if isLeap y then 29 else 28)
  else if m = 4 ∨ m = 6 ∨ m = 9 ∨ m = 11 then 30
  else 31

/-- Split on `'-'`, keeping empty segments. -/
def splitDash : List Char → List (List Char)
  | [] => [[]]
  | '-' :: rest => [] :: splitDash rest
  | c :: rest =>
    match splitDash rest with
    | seg :: segs => (c :: seg) :: segs
    | [] => [[c]]

/-- parser.py `_parse_date`: `datetime.strptime(s, "%Y-%m-%d")` with
`ValueError` mapped to `none`; `%Y` takes up to 4 digits, `%m`/`%d` up to 2,
and the calendar (including leap years, years 1–9999) is validated. -/
def parseDate (s : String) : Option PyDate :=
  match splitDash s.toList with
  | [ys, ms, ds] =>
    if ¬ys.isEmpty ∧ ys.length ≤ 4 ∧ ys.all Char.isDigit ∧
       ¬ms.isEmpty ∧ ms.length ≤ 2 ∧ ms.all Char.isDigit ∧
       ¬ds.isEmpty ∧ ds.length ≤ 2 ∧ ds.all Char.isDigit then
      if 1 ≤ digitsVal ys ∧ 1 ≤ digitsVal ms ∧ digitsVal ms ≤ 12 ∧
         1 ≤ digitsVal ds ∧ digitsVal ds ≤ daysInMonth (digitsVal ys) (digitsVal ms) then
        some ⟨digitsVal ys, digitsVal ms, digitsVal ds⟩
      else none
    else none
  | _ => none

def parse_ausfertigung_datum (e : Xml) : AusfertigungsDatum :=
  { manuell :=
      -- `manuell_raw = elem.get("manuell") or "nein"`, kept if "ja"/"nein"
      (match e.getAttr "manuell" with
       | some s =>
         if s.isEmpty then "nein"
         else if s = "ja" ∨ s = "nein" then s else "nein"
       | none => "nein"),
    datum :=
      (match e.text with
       | some s => if s.isEmpty then none else parseDate s
       | none => none) }

/-- parser.py `parse_metadaten` (on a present `metadaten` element). -/
def parse_metadaten (e : Xml) : Metadaten :=
  { jurabk := getAllText e "jurabk",
    amtabk := getText e "amtabk",
    ausfertigung_datum := (e.find "ausfertigung-datum").map parse_ausfertigung_datum,
    fundstelle := (e.findall "fundstelle").map parse_fundstelle,
    kurzue := getText e "kurzue",
    langue := getText e "langue",
    standangabe := (e.findall "standangabe").map parse_standangabe,
    enbez := getText e "enbez",
    titel := getText e "titel",
    gliederungseinheit := (e.find "gliederungseinheit").map parse_gliederungseinheit }

/-- parser.py `parse_norm`. -/
def parse_norm (e : Xml) : Norm :=
  { builddate := e.getAttr "builddate", doknr := e.getAttr "doknr",
    metadaten := (e.find "metadaten").map parse_metadaten,
    textdaten := (e.find "textdaten").map parse_textdaten }

/-- parser.py `parse_dokumente` (direct `norm` children only). -/
def parse_dokumente (root : Xml) : Dokumente :=
  { builddate := root.getAttr "builddate", doknr := root.getAttr "doknr",
    normen := (root.findall "norm").map parse_norm }

/-! ## Document methods (models.py `Dokumente`) -/

/-- models.py `get_paragraphen`: norms with metadata and a truthy `enbez`. -/
def Dokumente.get_paragraphen (d : Dokumente) : List Norm :=
  d.normen.filter fun norm =>
    match norm.metadaten with
    | some m => optTruthy m.enbez
    | none => false

/-- models.py `get_gliederung`: norms with metadata and a structural
heading. -/
def Dokumente.get_gliederung (d : Dokumente) : List Norm :=
  d.normen.filter fun norm =>
    match norm.metadaten with
    | some m => m.gliederungseinheit.isSome
    | none => false

/-- The per-norm condition of the `find_paragraph` loops: metadata present,
truthy `enbez`, and the normalized stored label equals the (already
normalized) query. -/
def normLabelMatches (q : String) (norm : Norm) : Bool :=
  match norm.metadaten with
  | some m =>
    match m.enbez with
    | some e => !e.isEmpty && normalizeLabel e == q
    | none => false
  | none => false

/-- models.py `Dokumente.find_paragraph`: normalize the query, walk
`get_paragraphen` in order, return the first norm whose normalized label
matches exactly. -/
def Dokumente.find_paragraph (d : Dokumente) (enbez : String) : Option Norm :=
  d.get_paragraphen.find? (normLabelMatches (normalizeLabel enbez))

/-! ## Text extraction (utils.py) -/

/-- The fallback loop of `extract_text_from_p`: strings, plus elements with
a truthy `text` attribute (`Kommentar`, `Pre`, `FormatElement` are the only
content variants that have one). -/
def pFallbackParts : List ContentElement → List String
  | [] => []
  | .text s :: rest => s :: pFallbackParts rest
  | .kommentar k :: rest => truthyParts k.text ++ pFallbackParts rest
  | .pre v :: rest => truthyParts v.text ++ pFallbackParts rest
  | .format f :: rest => truthyParts f.text ++ pFallbackParts rest
  | _ :: rest => pFallbackParts rest

/-- utils.py `extract_text_from_p`: `raw_text` when truthy, else the joined
and stripped fallback parts. -/
def extract_text_from_p (p : P) : String :=
  match p.raw_text with
  | some s =>
    if s.isEmpty then pyStripS (String.intercalate " " (pFallbackParts p.content))
    else s
  | none => pyStripS (String.intercalate " " (pFallbackParts p.content))

/-- The reconstruction loop of `extract_text_from_norm`: strings and `P`
elements; of the remaining variants none carries a `raw_text` attribute, so
the source's final `hasattr` branch never fires. -/
def normTextParts : List ContentElement → List String
  | [] => []
  | .text s :: rest => s :: normTextParts rest
  | .p p :: rest => extract_text_from_p p :: normTextParts rest
  | _ :: rest => normTextParts rest

/-- utils.py `extract_text_from_norm`. -/
def extract_text_from_norm (norm : Norm) : String :=
  match norm.textdaten with
  | none => ""
  | some td =>
    match td.text with
    | none => ""
    | some tx =>
      match tx.content with
      | none => ""
      | some content =>
        match content.raw_text with
        | some s =>
          if s.isEmpty then String.intercalate "\n" (normTextParts content.elements)
          else s
        | none => String.intercalate "\n" (normTextParts content.elements)

/-! ## Query engine (search.py `LawSearch`) -/

/-- The 70-character rule line of the result banner. -/
def sep70 : String := String.mk (List.replicate 70 '=')

/-- `f"{x}"` for an optional string (`None` renders as "None"). -/
def pyStrOpt : Option String → String
  | some s => s
  | none => "None"

/-- search.py `_format_paragraph` (always invoked with
`show_full_text=True`). -/
def format_paragraph (law_code : String) (norm : Norm) : String :=
  match norm.metadaten with
  | none => ""
  | some m =>
    String.intercalate "\n"
      ([sep70,
        law_code ++ " " ++
          (match m.enbez with
           | some e => if e.isEmpty then "?" else e
           | none => "?")] ++
       (match m.titel with
        | some t => if t.isEmpty then [] else [t]
        | none => []) ++
       [sep70] ++
       (if (extract_text_from_norm norm).isEmpty then []
        else ["", extract_text_from_norm norm]))

/-- search.py `LawSearch.find_paragraph`: normalize the query, return the
formatted first matching paragraph norm or `none`. -/
def find_paragraph (documents : Dokumente) (law_code : String)
    (paragraph_num : String) : Option String :=
  (documents.get_paragraphen.find?
      (normLabelMatches (normalizeLabel paragraph_num))).map
    (format_paragraph law_code)

/-- The result banner of `_find_section_in_norm`: rule line, law code +
label + "Absatz n" header (a missing label renders as Python's `None`),
rule line, blank, the section's extracted text. -/
def sectionBanner (law_code : String) (norm : Norm) (section_num : String)
    (p : P) : String :=
  String.intercalate "\n"
    [sep70,
     law_code ++ " " ++
       (match norm.metadaten with
        | some m => pyStrOpt m.enbez
        | none => "?") ++
       " Absatz " ++ section_num,
     sep70, "", extract_text_from_p p]

/-- The `for item in text_content.elements` loop of
`_find_section_in_norm`: count only `P` nodes, return the formatted
`target`-th one (1-based). -/
def sectionLoop (law_code : String) (norm : Norm) (section_num : String)
    (target : Int) : List ContentElement → Int → Option String
  | [], _ => none
  | item :: rest, count =>
    match item with
    | .p p =>
      if count + 1 = target then some (sectionBanner law_code norm section_num p)
      else sectionLoop law_code norm section_num target rest (count + 1)
    | _ => sectionLoop law_code norm section_num target rest count

/-- search.py `LawSearch._find_section_in_norm`; the unguarded
`int(section_num)` (reached only when the norm has content elements) is the
sole failure point. -/
def find_section_in_norm (law_code : String) (norm : Norm)
    (section_num : String) : Except String (Option String) :=
  match norm.textdaten with
  | none => .ok none
  | some td =>
    match td.text with
    | none => .ok none
    | some tx =>
      match tx.content with
      | none => .ok none
      | some content =>
        if content.elements.isEmpty then .ok none
        else
          match pyInt section_num with
          | .error msg => .error msg
          | .ok target =>
            .ok (sectionLoop law_code norm section_num target content.elements 0)

/-- search.py `LawSearch.find_paragraph_section`: resolve the paragraph by
normalized label (first match), then look up the section inside it. -/
def find_paragraph_section (documents : Dokumente) (law_code : String)
    (paragraph_num section_num : String) : Except String (Option String) :=
  match documents.get_paragraphen.find?
      (normLabelMatches (normalizeLabel paragraph_num)) with
  | some norm => find_section_in_norm law_code norm section_num
  | none => .ok none

/-- The context-window construction of `search_term`:
`start = max(0, idx-100)`, `end = min(len(text), idx+len(term)+100)`,
ellipsis on each side exactly when that side was cut. -/
def searchContext (text term : String) (idx : Nat) : String :=
  (if 0 < idx - 100 then "..." else "") ++
    (pySlice text.toList (idx - 100)
      (min text.length (idx + term.length + 100))).asString ++
    (if idx + term.length + 100 < text.length then "..." else "")

/-- The per-norm step of `search_term`: skip norms without metadata/truthy
label or with empty flattened text; otherwise substring-match and build the
±100-character context window with ellipsis marks. -/
def normSearchResult (term search_t : String) (case_sensitive : Bool)
    (norm : Norm) : Option SearchResult :=
  match norm.metadaten with
  | none => none
  | some m =>
    match m.enbez with
    | some enbez =>
      if enbez.isEmpty then none
      else
        if (extract_text_from_norm norm).isEmpty then none
        else
          match findSub (if case_sensitive then extract_text_from_norm norm
                         else pyLower (extract_text_from_norm norm)).toList
                  search_t.toList with
          | none => none
          | some idx =>
            some { paragraph := enbez,
                   title := m.titel.getD "",
                   context := searchContext (extract_text_from_norm norm) term idx }
    | none => none

/-- search.py `LawSearch.search_term`: all matching norms in document
order, no cap. -/
def search_term (documents : Dokumente) (term : String)
    (case_sensitive : Bool) : List SearchResult :=
  documents.get_paragraphen.filterMap
    (normSearchResult term (if case_sensitive then term else pyLower term)
      case_sensitive)

/-! ## Rendering (formatting.py) -/

mutual
/-- formatting.py `extract_text_from_elements`, split into the per-element
dispatch; recursive occurrences are the inlined body of the wrapper
`extract_text_from_elements` below. -/
def etfeParts : List ContentElement → List String
  | [] => []
  | e :: rest => etfePart e ++ etfeParts rest

/-- One loop step: str → itself; `P` → `raw_text` or recursion into its
content; `DL` skipped; then the `hasattr` chain: `text` (Kommentar, Pre,
FormatElement), `content` (TOC, Revision), `children` (FormatElement with
falsy text). -/
def etfePart : ContentElement → List String
  | .text s => [s]
  | .p (.mk _ content raw_text) =>
    (match raw_text with
     | some s =>
       if s.isEmpty then
         if content.isEmpty then []
         else [pyStripS (String.intercalate " " (etfeParts content))]
       else [s]
     | none =>
       if content.isEmpty then []
       else [pyStripS (String.intercalate " " (etfeParts content))])
  | .dl _ => []
  | .kommentar k => truthyParts k.text
  | .pre v => truthyParts v.text
  | .format (.mk _ _ _ text children) =>
    (match text with
     | some s =>
       if s.isEmpty then
         if children.isEmpty then []
         else [pyStripS (String.intercalate " " (etfeParts children))]
       else [s]
     | none =>
       if children.isEmpty then []
       else [pyStripS (String.intercalate " " (etfeParts children))])
  | .toc (.mk _ content) =>
    if content.isEmpty then []
    else [pyStripS (String.intercalate " " (etfeParts content))]
  | .revision (.mk _ _ content) =>
    if content.isEmpty then []
    else [pyStripS (String.intercalate " " (etfeParts content))]
  | .table _ => []
  | .img _ => []
  | .file _ => []
  | .fnArea _ => []
end

/-- formatting.py `extract_text_from_elements`. -/
def extract_text_from_elements (elements : List ContentElement) : String :=
  pyStripS (String.intercalate " " (etfeParts elements))

/-- `"  " * indent_level`. -/
def indentStr (n : Nat) : String := String.mk (List.replicate (2 * n) ' ')

/-- Python `a or b` on strings. -/
def pyOrS (a b : String) : String := if a.isEmpty then b else a

/-- The strings among a list of content elements. -/
def stringParts : List ContentElement → List String
  | [] => []
  | .text s :: rest => s :: stringParts rest
  | _ :: rest => stringParts rest

/-- Is there a nested `DL` among the children? -/
def hasDLElem (children : List ContentElement) : Bool :=
  children.any fun e =>
    match e with
    | .dl _ => true
    | _ => false

mutual
/-- formatting.py `process_dl_list`. -/
def process_dl_list : DL → Nat → Option String → List String
  | .mk _ _ _ _ items, indent_level, parent_ref =>
    processDLItems items indent_level parent_ref

def processDLItems : List DLItem → Nat → Option String → List String
  | [], _, _ => []
  | .mk dt (.mk _ la _) :: rest, ind, pref =>
    (match la with
     | none => []
     | some (.mk _ _ _ laText children) =>
       -- dt_text = item.dt.text or ""; item_ref when parent_ref is truthy
       (if ¬hasDLElem children then
          (if (pyOrS (laText.getD "")
                (pyOrS (String.intercalate " " (stringParts children))
                  (extract_text_from_elements children))).isEmpty then []
           else [indentStr ind ++ (dt.text.getD "") ++ " " ++
             pyOrS (laText.getD "")
               (pyOrS (String.intercalate " " (stringParts children))
                 (extract_text_from_elements children))])
        else
          (if (pyOrS (laText.getD "")
                (String.intercalate " " (stringParts children))).isEmpty then
             [indentStr ind ++ (dt.text.getD "")]
           else [indentStr ind ++ (dt.text.getD "") ++ " " ++
             pyOrS (laText.getD "")
               (String.intercalate " " (stringParts children))]) ++
          processNestedDLs children (ind + 1)
            (match pref with
             | some pr =>
               if pr.isEmpty then none else some (pr ++ " " ++ (dt.text.getD ""))
             | none => none))) ++
      processDLItems rest ind pref

/-- `for nested_dl in nested_dls: lines.extend(process_dl_list(...))` —
the nested `DL`s of the `LA` children, in order. -/
def processNestedDLs : List ContentElement → Nat → Option String → List String
  | [], _, _ => []
  | .dl d :: rest, ind, pref =>
    process_dl_list d ind pref ++ processNestedDLs rest ind pref
  | _ :: rest, ind, pref => processNestedDLs rest ind pref
end

/-! ## formatting.py `format_norm_content` -/

/-- formatting.py line 210, `absatz_num = p.absatz_num`: the Pydantic model
`P` (models.py 244–249) declares only `id`, `content` and `raw_text`, and
`parse_p` (parser.py 425–431) populates only those, so this attribute
access raises `AttributeError` on every `P` instance. -/
def pAbsatzNum (_ : P) : Except String (Option String) :=
  .error "AttributeError: 'P' object has no attribute 'absatz_num'"

/-- `text.startswith(pre)`. -/
def startsWithS (pre s : String) : Bool := matchesAt pre.toList s.toList

/-- The `P` elements of a content list, in order. -/
def pElems : List ContentElement → List P
  | [] => []
  | item :: rest =>
    match item with
    | .p p => p :: pElems rest
    | _ => pElems rest

/-- The `DL` elements of a content list, in order. -/
def dlElems : List ContentElement → List DL
  | [] => []
  | .dl d :: rest => d :: dlElems rest
  | _ :: rest => dlElems rest

/-- The strings before the first `DL` (the `intro_parts` loop). -/
def introParts : List ContentElement → List String
  | [] => []
  | .dl _ :: _ => []
  | .text s :: rest => s :: introParts rest
  | _ :: rest => introParts rest

/-- The no-list branch of the `format_norm_content` loop body. -/
def absatzHeaderSimple (absatz_num : Option String) (text : String) :
    List String :=
  if optTruthy absatz_num then
    if startsWithS ("(" ++ absatz_num.getD "" ++ ")") text then
      if (pyStripS ((text.toList.drop
            ("(" ++ absatz_num.getD "" ++ ")").length).asString)).isEmpty then
        ["(" ++ absatz_num.getD "" ++ ")"]
      else
        ["(" ++ absatz_num.getD "" ++ ") " ++
          pyStripS ((text.toList.drop
            ("(" ++ absatz_num.getD "" ++ ")").length).asString)]
    else
      if text.isEmpty then ["(" ++ absatz_num.getD "" ++ ")"]
      else ["(" ++ absatz_num.getD "" ++ ") " ++ text]
  else if text.isEmpty then [] else [text]

/-- The with-lists branch header of the `format_norm_content` loop body
(`intro0` is the joined, stripped intro text before prefix removal). -/
def absatzHeaderWithLists (absatz_num : Option String) (intro0 : String) :
    List String :=
  if optTruthy absatz_num then
    if startsWithS ("(" ++ absatz_num.getD "" ++ ")") intro0 then
      if (pyStripS ((intro0.toList.drop
            ("(" ++ absatz_num.getD "" ++ ")").length).asString)).isEmpty then
        ["(" ++ absatz_num.getD "" ++ ")"]
      else
        ["(" ++ absatz_num.getD "" ++ ") " ++
          pyStripS ((intro0.toList.drop
            ("(" ++ absatz_num.getD "" ++ ")").length).asString)]
    else
      if intro0.isEmpty then ["(" ++ absatz_num.getD "" ++ ")"]
      else ["(" ++ absatz_num.getD "" ++ ") " ++ intro0]
  else if intro0.isEmpty then [] else [intro0]

/-- The `for idx, p in enumerate(p_elements)` loop of
`format_norm_content`; the first statement of each iteration reads
`p.absatz_num`, so the loop propagates its `AttributeError`. -/
def formatNormLines (law_code paragraph_num : String) :
    List P → Nat → Except String (List String)
  | [], _ => .ok []
  | p :: rest, idx =>
    match pAbsatzNum p with
    | .error e => .error e
    | .ok absatz_num =>
      match formatNormLines law_code paragraph_num rest (idx + 1) with
      | .error e => .error e
      | .ok more =>
        .ok ((if 0 < idx then [""] else []) ++
          (if (dlElems p.content).isEmpty then
            absatzHeaderSimple absatz_num (p.raw_text.getD "")
          else
            absatzHeaderWithLists absatz_num
              (pyStripS (String.intercalate " " (introParts p.content))) ++
            ((dlElems p.content).map fun dl =>
              process_dl_list dl 0
                (some (match absatz_num with
                  | some a =>
                    if a.isEmpty then law_code ++ " " ++ paragraph_num
                    else law_code ++ " " ++ paragraph_num ++ " Absatz " ++ a
                  | none => law_code ++ " " ++ paragraph_num))).flatten) ++
          more)

/-- formatting.py `format_norm_content`. -/
def format_norm_content (norm : Norm) (law_code : String) :
    Except String String :=
  match norm.textdaten with
  | none => .ok ""
  | some td =>
    match td.text with
    | none => .ok ""
    | some tx =>
      match tx.content with
      | none => .ok ""
      | some content =>
        if content.elements.isEmpty then .ok ""
        else
          if (pElems content.elements).isEmpty then
            .ok (match content.raw_text with
                 | some s => if s.isEmpty then "" else s
                 | none => "")
          else
            match formatNormLines law_code
                (match norm.metadaten with
                 | some m =>
                   if optTruthy m.enbez then normalizeLabel (m.enbez.getD "")
                   else ""
                 | none => "")
                (pElems content.elements) 0 with
            | .error e => .error e
            | .ok lines => .ok (String.intercalate "\n" lines)

/-! ## Concrete example values used by the claim theorems -/

/-- A `metadaten` element carrying BOTH an `enbez` child and a
`gliederungseinheit` child. -/
def exMetadatenBoth : Xml :=
  Xml.mk "metadaten" [] none
    [Xml.mk "enbez" [] (some "§ 1") [] none,
     Xml.mk "gliederungseinheit" [] none
       [Xml.mk "gliederungsbez" [] (some "Erstes Buch") [] none] none] none

/-- A `norm` element with both facets populated. -/
def exNormBoth : Xml :=
  Xml.mk "norm" [] none [exMetadatenBoth] none

/-- The document-header norm of a real law file: metadata (jurabk, langue)
but neither an `enbez` nor a `gliederungseinheit`. -/
def exNormHeader : Xml :=
  Xml.mk "norm" [] none
    [Xml.mk "metadaten" [] none
      [Xml.mk "jurabk" [] (some "HGB") [] none,
       Xml.mk "langue" [] (some "Handelsgesetzbuch") [] none] none] none

/-- A model-level paragraph norm with label `enbez`, optional title and one
text paragraph (`P`) per entry of `ps`. -/
def mkParaNorm (enbez : String) (titel : Option String) (ps : List String) : Norm :=
  { builddate := none
    doknr := none
    metadaten := some
      { jurabk := [], amtabk := none, ausfertigung_datum := none,
        fundstelle := [], kurzue := none, langue := none, standangabe := [],
        enbez := some enbez, titel := titel, gliederungseinheit := none }
    textdaten := some
      { text := some
          { format := none
            toc := none
            content := some
              { id := none
                elements := ps.map (fun t =>
                  ContentElement.p (P.mk none [ContentElement.text t] (some t)))
                raw_text := none }
            footnotes := none }
        fussnoten := none } }

/-- A two-paragraph document: "§ 8" and "§ 8b". -/
def exDoc : Dokumente :=
  { builddate := none, doknr := none,
    normen := [mkParaNorm "§ 8" none ["(1) Acht eins", "(2) Acht zwei"],
               mkParaNorm "§ 8b" (some "Beteiligungen")
                 ["(1) Im Handelsregister steht es", "(2) Zweiter Absatz"]] }

/-- A one-paragraph document whose "§ 1" has two content paragraphs. -/
def exDoc1 : Dokumente :=
  { builddate := none, doknr := none,
    normen := [mkParaNorm "§ 1" none ["(1) Erster Absatz", "(2) Zweiter Absatz"]] }

/-- A `norm` element whose text body holds one `P` node whose text starts
with "(1) ". -/
def exNormP : Xml :=
  Xml.mk "norm" [] none
    [Xml.mk "metadaten" [] none [Xml.mk "enbez" [] (some "§ 1") [] none] none,
     Xml.mk "textdaten" [] none
       [Xml.mk "text" [] none
          [Xml.mk "Content" [] none
             [Xml.mk "P" [] (some "(1) Beispiel") [] none] none] none] none]
    none

/-- The top-level `P` nodes of a norm's text body, in order — the list the
positional section lookup walks (statement-side helper). -/
def topLevelPs (norm : Norm) : List P :=
  match norm.textdaten with
  | some td =>
    match td.text with
    | some tx =>
      match tx.content with
      | some c => pElems c.elements
      | none => []
    | none => []
  | none => []

/-- The per-norm hit condition of the full-text search (metadata with a
truthy label, non-empty flattened text, case-folded containment). -/
def searchHit (term : String) (nm : Norm) : Bool :=
  match nm.metadaten with
  | some m =>
    optTruthy m.enbez && !(extract_text_from_norm nm).isEmpty &&
      (findSub (pyLower (extract_text_from_norm nm)).toList
        (pyLower term).toList).isSome
  | none => false

/-- The uppercase law-code heuristic exactly as the specification states it:
starts and ends with an uppercase letter, or is fully uppercase, and has
length at least 2.  Spec-side definition, used only to compare the spec's
words with what the code computes. -/
def specLawcodeHeuristic (s : String) : Bool :=
  2 ≤ s.length &&
    ((s.toList.headD ' ').isUpper && (s.toList.getLastD ' ').isUpper
      || s.toList.all Char.isUpper)

/-! ## Theorems -/

theorem afterMarker_law_none {cs : List Char} {r : LawReference}
    (h : afterMarker cs = some r) : r.law = none := by
  unfold afterMarker at h
  split at h
  · exact Option.noConfusion h
  · injection h with h1
    subst h1
    rfl

theorem signAttempt_law_none {cs : List Char} {r : LawReference}
    (h : signAttempt cs = some r) : r.law = none := by
  unfold signAttempt at h
  split at h
  · exact afterMarker_law_none h
  · exact Option.noConfusion h

theorem matchMarker_law_none {cs : List Char} {r : LawReference}
    (h : matchMarker cs = some r) : r.law = none := by
  unfold matchMarker at h
  split at h
  next r0 heq =>
    injection h with h1
    subst h1
    exact signAttempt_law_none heq
  next heq =>
    split at h
    next r0 heq2 =>
      injection h with h1
      subst h1
      rcases Option.bind_eq_some.mp heq2 with ⟨mid, _, ham⟩
      exact afterMarker_law_none ham
    next heq2 =>
      rcases Option.bind_eq_some.mp h with ⟨mid, _, ham⟩
      exact afterMarker_law_none ham

theorem lawAttempt_law {cs : List Char} {r : LawReference} {l : String}
    (h : lawAttempt cs = some r) (hl : r.law = some l) :
    l.toList = cs.takeWhile Char.isAlpha ∧ 2 ≤ (cs.takeWhile Char.isAlpha).length := by
  unfold lawAttempt at h
  split at h
  next hlen =>
    split at h
    next c rest hdrop =>
      split at h
      next hsp =>
        split at h
        next rr hmark =>
          injection h with h1
          subst h1
          simp only [LawReference.law] at hl
          injection hl with h2
          subst h2
          exact ⟨rfl, hlen⟩
        next => exact Option.noConfusion h
      next => exact Option.noConfusion h
    next => exact Option.noConfusion h
  next => exact Option.noConfusion h

theorem matchAt_law {cs : List Char} {r : LawReference} {l : String}
    (h : matchAt cs = some r) (hl : r.law = some l) :
    l.toList = cs.takeWhile Char.isAlpha ∧ 2 ≤ (cs.takeWhile Char.isAlpha).length := by
  unfold matchAt at h
  split at h
  next r0 heq =>
    injection h with h1
    subst h1
    exact lawAttempt_law heq hl
  next heq =>
    exact absurd (matchMarker_law_none h) (by simp [hl])

theorem matchAt_law_shape {cs : List Char} {r : LawReference} {l : String}
    (h : matchAt cs = some r) (hl : r.law = some l) :
    2 ≤ l.length ∧ l.toList.all Char.isAlpha := by
  have hm := matchAt_law h hl
  have hlen : l.length = (cs.takeWhile Char.isAlpha).length := by
    show l.toList.length = _
    rw [hm.1]
  refine ⟨hlen ▸ hm.2, ?_⟩
  rw [List.all_eq_true]
  intro a ha
  exact List.mem_takeWhile_imp (hm.1 ▸ ha)

theorem searchRef_law {cs : List Char} {r : LawReference} {l : String}
    (h : searchRef cs = some r) (hl : r.law = some l) :
    2 ≤ l.length ∧ l.toList.all Char.isAlpha := by
  induction cs with
  | nil =>
    unfold searchRef at h
    exact matchAt_law_shape h hl
  | cons c rest ih =>
    unfold searchRef at h
    split at h
    next r0 heq =>
      injection h with h1
      subst h1
      exact matchAt_law_shape heq hl
    next heq =>
      exact ih h

/-- C2 (corrected), counterexample: because the pattern is compiled with
`re.IGNORECASE`, the all-lowercase word "ab" preceding "§" IS captured as
the law code, violating the claimed uppercase heuristic. -/
theorem C2_lowercase_lawcode_counterexample :
    parse_law_reference "ab § 1" =
      some { law := some "ab", paragraph := "1", sectionNum := none,
             number := none, letter := none, sentence := none } ∧
    specLawcodeHeuristic "ab" = false := by
  exact ⟨by decide, by decide⟩

/-- C2 (amended): for every input string, the reference parser either
returns no law code or returns a token of ASCII letters of length at
least 2 taken from directly before the paragraph marker; because matching
is case-insensitive, no constraint on letter case holds. -/
theorem C2_lawcode_alpha_token (s : String) (r : LawReference) (l : String)
    (h : parse_law_reference s = some r) (hl : r.law = some l) :
    2 ≤ l.length ∧ l.toList.all Char.isAlpha :=
  searchRef_law h hl

theorem C2_lawcode_alpha_token_witness :
    2 ≤ "BGB".length ∧ "BGB".toList.all Char.isAlpha :=
  C2_lawcode_alpha_token "BGB § 1"
    { law := some "BGB", paragraph := "1", sectionNum := none,
      number := none, letter := none, sentence := none } "BGB" (by decide) rfl

theorem replaceCRLF_cons_ne_nil (c : Char) (cs : List Char) :
    replaceCRLF (c :: cs) ≠ [] := by
  unfold replaceCRLF
  split
  · split
    · simp
    · split <;> simp
  · simp

theorem collapseSpaces_cons_ne_nil (c : Char) (cs : List Char) :
    collapseSpaces (c :: cs) ≠ [] := by
  simp only [collapseSpaces]
  split <;> simp

theorem normalizeWs_ne_nil {cs : List Char} (h : cs ≠ []) :
    normalizeWs cs ≠ [] := by
  match cs, h with
  | c :: rest, _ =>
    unfold normalizeWs
    obtain ⟨d, ds, hds⟩ :=
      List.exists_cons_of_ne_nil (replaceCRLF_cons_ne_nil c rest)
    rw [hds]
    simp only [List.map]
    exact collapseSpaces_cons_ne_nil _ _

theorem data_ne_nil_of_ne_empty {t : String} (h : t ≠ "") : t.data ≠ [] := by
  intro hd
  apply h
  cases t with
  | mk l =>
    cases hd
    rfl

theorem normalizeWsS_ne_empty {t : String} (h : t ≠ "") : normalizeWsS t ≠ "" := by
  intro he
  have h2 : (normalizeWs t.toList).asString.data = ("" : String).data :=
    congrArg String.data he
  exact normalizeWs_ne_nil (data_ne_nil_of_ne_empty h) h2

/-- C3 (corrected), counterexample: the parser enforces no facet
exclusivity — a `metadaten` element carrying both an `enbez` child and a
`gliederungseinheit` child yields a norm with BOTH facets populated. -/
theorem C3_both_facets_counterexample :
    ((parse_norm exNormBoth).metadaten.map Metadaten.enbez) = some (some "§ 1") ∧
    ((parse_norm exNormBoth).metadaten.map
      (fun m => m.gliederungseinheit.isSome)) = some true := by
  exact ⟨by decide, by decide⟩

/-- C3 (amended): the parser populates each facet independently of the
other, mirroring the source element — `enbez` is exactly `_get_text` of the
`enbez` child, and the heading facet is present iff a `gliederungseinheit`
child exists; a norm whose metadata is non-empty (here: a `jurabk`) may
have neither facet, and a norm may have both. -/
theorem C3_facets_mirror_source :
    (∀ e : Xml,
      (parse_metadaten e).enbez = getText e "enbez" ∧
      (parse_metadaten e).gliederungseinheit.isSome = (e.find "gliederungseinheit").isSome) ∧
    ((parse_norm exNormHeader).metadaten.map
      (fun m => (m.jurabk, m.enbez, m.gliederungseinheit.isSome))) =
      some (["HGB"], none, false) ∧
    ((parse_norm exNormBoth).metadaten.map
      (fun m => (m.enbez.isSome, m.gliederungseinheit.isSome))) = some (true, true) := by
  refine ⟨fun e => ⟨rfl, ?_⟩, by decide, by decide⟩
  cases h : e.find "gliederungseinheit" with
  | none => simp [parse_metadaten, h]
  | some g => simp [parse_metadaten, h]

/-- C9 (confirmed): definition-list pairing — a `DT` sets the pending term
and the next `DD` pairs with it; with no `DD` children no item is produced
(terms without descriptions are dropped), with no `DT` children and no
pending term no item is produced (orphan descriptions are dropped), and on
the malformed orderings `DT DT DD` / `DD DT` the orphan is dropped silently
while parsing still succeeds. -/
theorem C9_dl_pairing :
    (∀ (cs : List Xml) (cur : Option DT),
        (∀ c ∈ cs, c.tag ≠ "DD") → dlScan cs cur = []) ∧
    (∀ cs : List Xml,
        (∀ c ∈ cs, c.tag ≠ "DT") → dlScan cs none = []) ∧
    parse_dl (Xml.mk "DL" [] none
      [Xml.mk "DT" [] (some "1.") [] none,
       Xml.mk "DT" [] (some "2.") [] none,
       Xml.mk "DD" [] none [] none] none) =
      DL.mk none none none none
        [DLItem.mk (DT.mk none (some "2.")) (DD.mk none none [])] ∧
    parse_dl (Xml.mk "DL" [] none
      [Xml.mk "DD" [] none [] none,
       Xml.mk "DT" [] (some "a)") [] none] none) =
      DL.mk none none none none [] := by
  refine ⟨?_, ?_, ?_, ?_⟩
  · intro cs
    induction cs with
    | nil => intro cur _; rw [dlScan.eq_def]
    | cons c rest ih =>
      intro cur h
      have hd : c.tag ≠ "DD" := h c (by simp)
      have ht : ∀ x ∈ rest, x.tag ≠ "DD" := fun x hx => h x (by simp [hx])
      rw [dlScan.eq_def]
      show (if c.tag = "DT" then dlScan rest (some (parse_dt c))
        else if c.tag = "DD" then
          (match cur with
           | some dt => DLItem.mk dt (parse_dd c) :: dlScan rest none
           | none => dlScan rest cur)
        else dlScan rest cur) = []
      by_cases hdt : c.tag = "DT"
      · rw [if_pos hdt]
        exact ih _ ht
      · rw [if_neg hdt, if_neg hd]
        exact ih _ ht
  · intro cs
    induction cs with
    | nil => intro _; rw [dlScan.eq_def]
    | cons c rest ih =>
      intro h
      have hd : c.tag ≠ "DT" := h c (by simp)
      have ht : ∀ x ∈ rest, x.tag ≠ "DT" := fun x hx => h x (by simp [hx])
      rw [dlScan.eq_def]
      show (if c.tag = "DT" then dlScan rest (some (parse_dt c))
        else if c.tag = "DD" then
          (match (none : Option DT) with
           | some dt => DLItem.mk dt (parse_dd c) :: dlScan rest none
           | none => dlScan rest none)
        else dlScan rest none) = []
      rw [if_neg hd]
      by_cases hdd : c.tag = "DD"
      · rw [if_pos hdd]
        exact ih ht
      · rw [if_neg hdd]
        exact ih ht
  · have h1 : parse_dt (Xml.mk "DT" [] (some "1.") [] none) =
        DT.mk none (some "1.") := by decide
    have h2 : parse_dt (Xml.mk "DT" [] (some "2.") [] none) =
        DT.mk none (some "2.") := by decide
    simp only [parse_dl, dlScan, parse_dd, parseLAOpt, parseRevisionList,
      Xml.getAttr, Xml.attrs, Xml.text, Xml.children, Xml.tag, Xml.find,
      Xml.findall, getAttrMulti, h1, h2]
    simp
    simp [parseLAOpt, parseRevisionList]
  · simp only [parse_dl, dlScan, Xml.getAttr, Xml.attrs, Xml.children,
      Xml.tag, getAttrMulti]
    simp

theorem C9_dl_pairing_witness :
    dlScan [Xml.mk "DT" [] (some "1.") [] none] none = [] :=
  C9_dl_pairing.1 [Xml.mk "DT" [] (some "1.") [] none] none (by decide)

/-- C8 (confirmed): after a child, its tail text is appended as a single
normalized `Text` node unless the normalized tail is exactly one space
(then it is dropped); a non-trivial normalized tail — including one that is
only whitespace but different from a single space — is preserved. -/
theorem C8_tail_normalization (t : String) (ht : t ≠ "") :
    parse_content_elements
        (Xml.mk "P" [] none [Xml.mk "BR" [] none [] (some t)] none) =
      [ContentElement.text "\n"] ++
        (if normalizeWsS t = " " then []
         else [ContentElement.text (normalizeWsS t)]) := by
  have hne : normalizeWsS t ≠ "" := normalizeWsS_ne_empty ht
  have htl : t.isEmpty = false := by
    cases hx : t.isEmpty
    · rfl
    · exact absurd ((String.isEmpty_iff t).mp hx) ht
  have hnl : (normalizeWsS t).isEmpty = false := by
    cases hx : (normalizeWsS t).isEmpty
    · rfl
    · exact absurd ((String.isEmpty_iff (normalizeWsS t)).mp hx) hne
  simp only [parse_content_elements, parseChildList, childNodes, tailNodes,
    leadingText, Xml.tail, Xml.tag, Xml.text, Xml.children, Xml.attrs,
    isSupRec, Xml.getAttr, isFormatTag, htl, hnl]
  simp

theorem C8_tail_normalization_witness :
    parse_content_elements
        (Xml.mk "P" [] none [Xml.mk "BR" [] none [] (some " x")] none) =
      [ContentElement.text "\n", ContentElement.text " x"] := by
  have h := C8_tail_normalization " x" (by decide)
  have hval : normalizeWsS " x" = " x" := by decide
  rw [h, hval]
  simp

/-- C4 (confirmed): `"BGB § 1 Absatz 1 Satz 1"` parses to law "BGB",
paragraph "1", section "1", sentence "1" with number and letter unset, and
on `"Siehe § 1 und § 2 Absatz 3"` only the first reference is returned:
paragraph "1" with section unset. -/
theorem C4_reference_examples :
    parse_law_reference "BGB § 1 Absatz 1 Satz 1" =
      some { law := some "BGB", paragraph := "1", sectionNum := some "1",
             number := none, letter := none, sentence := some "1" } ∧
    (parse_law_reference "Siehe § 1 und § 2 Absatz 3").map
        (fun r => (r.paragraph, r.sectionNum)) = some ("1", none) := by
  exact ⟨by decide, by decide⟩

theorem find?_first {α : Type} (p : α → Bool) :
    ∀ (l : List α) (a : α), l.find? p = some a →
      ∃ l1 l2, l = l1 ++ a :: l2 ∧ p a = true ∧ ∀ x ∈ l1, p x = false := by
  intro l
  induction l with
  | nil => intro a h; exact absurd h (by simp)
  | cons c rest ih =>
    intro a h
    by_cases hc : p c = true
    · rw [List.find?_cons_of_pos rest hc] at h
      injection h with h1
      subst h1
      exact ⟨[], rest, rfl, hc, by simp⟩
    · rw [List.find?_cons_of_neg rest hc] at h
      obtain ⟨l1, l2, heq, hpa, hall⟩ := ih a h
      refine ⟨c :: l1, l2, by rw [heq, List.cons_append], hpa, ?_⟩
      intro x hx
      rcases List.mem_cons.mp hx with h1 | h1
      · subst h1
        simpa using hc
      · exact hall x h1

/-- C5 (confirmed): paragraph lookup normalizes both sides by removing "§"
and stripping whitespace and then requires exact equality — `"§ 8b"` and
`"8b "` give the same result on every document, a lookup of `"8"` can only
return a norm whose normalized label is exactly `"8"` (never `"8b"`), and
the returned norm is the first match in document order. -/
theorem C5_paragraph_lookup :
    (∀ d : Dokumente, d.find_paragraph "§ 8b" = d.find_paragraph "8b ") ∧
    (∀ (d : Dokumente) (n : Norm), d.find_paragraph "8" = some n →
      ∀ (m : Metadaten) (e : String), n.metadaten = some m → m.enbez = some e →
        normalizeLabel e = "8") ∧
    (∀ (d : Dokumente) (q : String) (n : Norm), d.find_paragraph q = some n →
      ∃ l1 l2, d.get_paragraphen = l1 ++ n :: l2 ∧
        normLabelMatches (normalizeLabel q) n = true ∧
        ∀ x ∈ l1, normLabelMatches (normalizeLabel q) x = false) := by
  refine ⟨?_, ?_, ?_⟩
  · intro d
    unfold Dokumente.find_paragraph
    rw [show normalizeLabel "§ 8b" = "8b" from by decide,
        show normalizeLabel "8b " = "8b" from by decide]
  · intro d n h m e hm he
    unfold Dokumente.find_paragraph at h
    have hp := List.find?_some h
    rw [show normalizeLabel "8" = "8" from by decide] at hp
    simp only [normLabelMatches, hm, he, Bool.and_eq_true] at hp
    exact eq_of_beq hp.2
  · intro d q n h
    unfold Dokumente.find_paragraph at h
    exact find?_first _ _ _ h

theorem C5_paragraph_lookup_witness : normalizeLabel "§ 8" = "8" :=
  C5_paragraph_lookup.2.1 exDoc
    (mkParaNorm "§ 8" none ["(1) Acht eins", "(2) Acht zwei"]) rfl
    { jurabk := [], amtabk := none, ausfertigung_datum := none,
      fundstelle := [], kurzue := none, langue := none, standangabe := [],
      enbez := some "§ 8", titel := none, gliederungseinheit := none }
    "§ 8" rfl rfl

theorem sectionLoop_none (law : String) (norm : Norm) (s : String) (n : Int) :
    ∀ (es : List ContentElement) (count : Int),
      count + (pElems es).length < n →
      sectionLoop law norm s n es count = none := by
  intro es
  induction es with
  | nil => intro count _; rfl
  | cons item rest ih =>
    intro count h
    cases item
    case p pp =>
      have hlen : (pElems (ContentElement.p pp :: rest)).length =
          (pElems rest).length + 1 := by simp [pElems]
      show (if count + 1 = n then some (sectionBanner law norm s pp)
            else sectionLoop law norm s n rest (count + 1)) = none
      rw [if_neg (by omega)]
      apply ih
      omega
    all_goals exact ih count (by simpa [pElems] using h)

theorem sectionLoop_some (law : String) (norm : Norm) (s : String) (n : Int) :
    ∀ (es : List ContentElement) (count : Int) (k : Nat) (pk : P),
      (pElems es).get? k = some pk → n = count + (k : Int) + 1 →
      sectionLoop law norm s n es count = some (sectionBanner law norm s pk) := by
  intro es
  induction es with
  | nil => intro count k pk hk _; simp [pElems] at hk
  | cons item rest ih =>
    intro count k pk hk hn
    cases item
    case p pp =>
      simp only [pElems] at hk
      cases k with
      | zero =>
        rw [List.get?_cons_zero] at hk
        have hk1 : pp = pk := by injection hk
        subst hk1
        show (if count + 1 = n then some (sectionBanner law norm s pp)
              else sectionLoop law norm s n rest (count + 1)) =
          some (sectionBanner law norm s pp)
        rw [if_pos (by omega)]
      | succ k2 =>
        rw [List.get?_cons_succ] at hk
        show (if count + 1 = n then some (sectionBanner law norm s pp)
              else sectionLoop law norm s n rest (count + 1)) = _
        rw [if_neg (by push_cast at hn; omega)]
        apply ih (count + 1) k2 pk hk
        push_cast at hn ⊢
        omega
    all_goals exact ih count k pk (by simpa [pElems] using hk) hn

/-- C6 (confirmed): section lookup resolves the paragraph, then walks the
top-level content list of its text body counting only `P` nodes; the k-th
`P` node (0-based; section number k+1) yields the formatted banner around
that node's text, and any section number greater than the number of
top-level `P` nodes yields not-found. -/
theorem C6_section_lookup (d : Dokumente) (law p s : String) (norm : Norm)
    (n : Int)
    (hfind : d.get_paragraphen.find?
      (normLabelMatches (normalizeLabel p)) = some norm)
    (hint : pyInt s = .ok n) :
    (((topLevelPs norm).length : Int) < n →
        find_paragraph_section d law p s = .ok none) ∧
    (∀ (k : Nat) (pk : P), n = (k : Int) + 1 →
        (topLevelPs norm).get? k = some pk →
        find_paragraph_section d law p s =
          .ok (some (sectionBanner law norm s pk))) := by
  have hred : find_paragraph_section d law p s = find_section_in_norm law norm s := by
    unfold find_paragraph_section
    rw [hfind]
  rw [hred]
  cases htd : norm.textdaten with
  | none =>
    refine ⟨fun _ => ?_, fun k pk _ hk => ?_⟩
    · unfold find_section_in_norm
      simp only [htd]
    · unfold topLevelPs at hk
      simp only [htd] at hk
      simp at hk
  | some td =>
    cases htx : td.text with
    | none =>
      refine ⟨fun _ => ?_, fun k pk _ hk => ?_⟩
      · unfold find_section_in_norm
        simp only [htd, htx]
      · unfold topLevelPs at hk
        simp only [htd, htx] at hk
        simp at hk
    | some tx =>
      cases hc : tx.content with
      | none =>
        refine ⟨fun _ => ?_, fun k pk _ hk => ?_⟩
        · unfold find_section_in_norm
          simp only [htd, htx, hc]
        · unfold topLevelPs at hk
          simp only [htd, htx, hc] at hk
          simp at hk
      | some content =>
        have hfs : find_section_in_norm law norm s =
            if content.elements.isEmpty then .ok none
            else match pyInt s with
              | .error msg => .error msg
              | .ok target =>
                .ok (sectionLoop law norm s target content.elements 0) := by
          unfold find_section_in_norm
          simp only [htd, htx, hc]
        have htop : topLevelPs norm = pElems content.elements := by
          unfold topLevelPs
          simp only [htd, htx, hc]
        rw [hfs, htop]
        by_cases he : content.elements.isEmpty
        · have hnil : content.elements = [] := List.isEmpty_iff.mp he
          rw [if_pos he, hnil]
          exact ⟨fun _ => rfl, fun k pk _ hk => by simp [pElems] at hk⟩
        · rw [if_neg he]
          simp only [hint]
          constructor
          · intro hlt
            rw [sectionLoop_none law norm s n content.elements 0 (by omega)]
          · intro k pk hn hk
            rw [sectionLoop_some law norm s n content.elements 0 k pk hk
              (by omega)]

theorem C6_section_lookup_witness :
    find_paragraph_section exDoc1 "KStG" "1" "3" = .ok none :=
  (C6_section_lookup exDoc1 "KStG" "1" "3"
      (mkParaNorm "§ 1" none ["(1) Erster Absatz", "(2) Zweiter Absatz"]) 3
      rfl rfl).1 (by decide)

/-- C10 (confirmed): `find_paragraph_section` applied to an existing
paragraph with a non-numeric section string raises `ValueError` from the
unguarded `int(section_num)` instead of returning not-found; a numeric
section string never raises (for every document, paragraph and integer
result, the call returns an `ok` value). -/
theorem C10_nonnumeric_section_raises :
    find_paragraph_section exDoc1 "KStG" "1" "abc" =
      .error "ValueError: invalid literal for int()" ∧
    (∀ (d : Dokumente) (law p s : String) (n : Int), pyInt s = .ok n →
      ∃ r, find_paragraph_section d law p s = .ok r) := by
  constructor
  · rfl
  · intro d law p s n hint
    unfold find_paragraph_section
    cases hf : d.get_paragraphen.find? (normLabelMatches (normalizeLabel p)) with
    | none => exact ⟨none, rfl⟩
    | some norm =>
      show ∃ r, find_section_in_norm law norm s = .ok r
      cases htd : norm.textdaten with
      | none =>
        refine ⟨none, ?_⟩
        unfold find_section_in_norm
        simp only [htd]
      | some td =>
        cases htx : td.text with
        | none =>
          refine ⟨none, ?_⟩
          unfold find_section_in_norm
          simp only [htd, htx]
        | some tx =>
          cases hc : tx.content with
          | none =>
            refine ⟨none, ?_⟩
            unfold find_section_in_norm
            simp only [htd, htx, hc]
          | some content =>
            by_cases he : content.elements.isEmpty
            · refine ⟨none, ?_⟩
              unfold find_section_in_norm
              simp only [htd, htx, hc]
              rw [if_pos he]
            · refine ⟨sectionLoop law norm s n content.elements 0, ?_⟩
              unfold find_section_in_norm
              simp only [htd, htx, hc, hint]
              rw [if_neg he]

/-- C1 (code_bug): the model `P` declares no `absatz_num` field and
`parse_p` stores none, yet `format_norm_content` reads `p.absatz_num` as
the first statement of its per-paragraph loop; hence formatting any norm
whose text body contains a `P` node — including a freshly parsed norm whose
paragraph text begins with "(1) " — raises
`AttributeError: 'P' object has no attribute 'absatz_num'` instead of
performing section-keyed rendering. -/
theorem C1_absatz_num_attribute_error :
    format_norm_content (parse_norm exNormP) "HGB" =
      .error "AttributeError: 'P' object has no attribute 'absatz_num'" ∧
    (∀ (norm : Norm) (law : String) (td : Textdaten) (tx : Text)
        (content : Content),
      norm.textdaten = some td → td.text = some tx →
      tx.content = some content →
      (pElems content.elements).isEmpty = false →
      format_norm_content norm law =
        .error "AttributeError: 'P' object has no attribute 'absatz_num'") := by
  have hgen : ∀ (norm : Norm) (law : String) (td : Textdaten) (tx : Text)
      (content : Content),
      norm.textdaten = some td → td.text = some tx →
      tx.content = some content →
      (pElems content.elements).isEmpty = false →
      format_norm_content norm law =
        .error "AttributeError: 'P' object has no attribute 'absatz_num'" := by
    intro norm law td tx content htd htx hcn hp
    unfold format_norm_content
    simp only [htd, htx, hcn]
    have hne : content.elements.isEmpty = false := by
      cases hel : content.elements with
      | nil =>
        rw [hel] at hp
        simp [pElems] at hp
      | cons a l => simp [hel]
    rw [if_neg (by simp [hne]), if_neg (by simp [hp])]
    obtain ⟨p, rest, hpe⟩ : ∃ p rest, pElems content.elements = p :: rest := by
      cases hq : pElems content.elements with
      | nil =>
        rw [hq] at hp
        simp at hp
      | cons p rest => exact ⟨p, rest, rfl⟩
    rw [hpe]
    simp [formatNormLines, pAbsatzNum]
  refine ⟨?_, hgen⟩
  have hc : parse_content_elements
      (Xml.mk "Content" [] none
        [Xml.mk "P" [] (some "(1) Beispiel") [] none] none) =
      [ContentElement.p
        (parse_p (Xml.mk "P" [] (some "(1) Beispiel") [] none))] := by
    simp only [parse_content_elements, parseChildList, childNodes, tailNodes,
      leadingText, Xml.tail, Xml.tag, Xml.text, Xml.children, Xml.attrs,
      Xml.getAttr, isSupRec]
    simp [isFormatTag]
  have hp : (pElems (parse_content
      (Xml.mk "Content" [] none
        [Xml.mk "P" [] (some "(1) Beispiel") [] none] none)).elements).isEmpty
      = false := by
    rw [show (parse_content
        (Xml.mk "Content" [] none
          [Xml.mk "P" [] (some "(1) Beispiel") [] none] none)).elements =
      parse_content_elements
        (Xml.mk "Content" [] none
          [Xml.mk "P" [] (some "(1) Beispiel") [] none] none) from rfl, hc]
    simp [pElems]
  exact hgen (parse_norm exNormP) "HGB"
    (parse_textdaten (Xml.mk "textdaten" [] none
      [Xml.mk "text" [] none
        [Xml.mk "Content" [] none
          [Xml.mk "P" [] (some "(1) Beispiel") [] none] none] none] none))
    (parse_text (Xml.mk "text" [] none
      [Xml.mk "Content" [] none
        [Xml.mk "P" [] (some "(1) Beispiel") [] none] none] none))
    (parse_content (Xml.mk "Content" [] none
      [Xml.mk "P" [] (some "(1) Beispiel") [] none] none))
    rfl rfl rfl hp

theorem C1_absatz_num_attribute_error_witness :
    format_norm_content (mkParaNorm "§ 1" none ["(1) Beispiel"]) "HGB" =
      .error "AttributeError: 'P' object has no attribute 'absatz_num'" :=
  C1_absatz_num_attribute_error.2 (mkParaNorm "§ 1" none ["(1) Beispiel"])
    "HGB" _ _ _ rfl rfl rfl (by decide)

theorem normSearchResult_isSome (term : String) (nm : Norm) :
    (normSearchResult term (pyLower term) false nm).isSome = searchHit term nm := by
  cases hm : nm.metadaten with
  | none =>
    unfold normSearchResult searchHit
    simp [hm]
  | some m =>
    cases he : m.enbez with
    | none =>
      unfold normSearchResult searchHit
      simp [hm, he, optTruthy]
    | some e =>
      unfold normSearchResult searchHit
      simp only [hm, he, optTruthy]
      by_cases h1 : e.isEmpty
      · simp [h1]
      · by_cases h2 : (extract_text_from_norm nm).isEmpty
        · simp [h1, h2]
        · cases hf : findSub (pyLower (extract_text_from_norm nm)).toList
              (pyLower term).toList with
          | none =>
            have hf' : findSub (pyLower (extract_text_from_norm nm)).data
                (pyLower term).data = none := hf
            simp [h1, h2, hf, hf']
          | some idx =>
            have hf' : findSub (pyLower (extract_text_from_norm nm)).data
                (pyLower term).data = some idx := hf
            simp [h1, h2, hf, hf']

theorem filterMap_length_eq (term : String) :
    ∀ l : List Norm,
      (l.filterMap (normSearchResult term (pyLower term) false)).length =
        (l.filter (searchHit term)).length := by
  intro l
  induction l with
  | nil => rfl
  | cons nm rest ih =>
    rw [List.filterMap_cons, List.filter_cons]
    cases hns : normSearchResult term (pyLower term) false nm with
    | none =>
      have hh : searchHit term nm = false := by
        rw [← normSearchResult_isSome, hns]
        rfl
      rw [hh]
      simpa using ih
    | some r =>
      have hh : searchHit term nm = true := by
        rw [← normSearchResult_isSome, hns]
        rfl
      rw [hh]
      simpa using ih

theorem normSearchResult_context (term : String) (nm : Norm) (r : SearchResult)
    (h : normSearchResult term (pyLower term) false nm = some r) :
    ∃ idx, findSub (pyLower (extract_text_from_norm nm)).toList
        (pyLower term).toList = some idx ∧
      r.context = searchContext (extract_text_from_norm nm) term idx := by
  unfold normSearchResult at h
  cases hm : nm.metadaten with
  | none => simp [hm] at h
  | some m =>
    cases he : m.enbez with
    | none => simp [hm, he] at h
    | some e =>
      simp only [hm, he] at h
      by_cases h1 : e.isEmpty
      · rw [if_pos h1] at h
        exact absurd h (by simp)
      · rw [if_neg h1] at h
        by_cases h2 : (extract_text_from_norm nm).isEmpty
        · rw [if_pos h2] at h
          exact absurd h (by simp)
        · rw [if_neg h2] at h
          rw [show (if (false : Bool) = true then extract_text_from_norm nm
                else pyLower (extract_text_from_norm nm)) =
              pyLower (extract_text_from_norm nm) from rfl] at h
          cases hf : findSub (pyLower (extract_text_from_norm nm)).toList
              (pyLower term).toList with
          | none =>
            rw [hf] at h
            exact absurd h (by simp)
          | some idx =>
            rw [hf] at h
            refine ⟨idx, rfl, ?_⟩
            have h3 : some
                { paragraph := e, title := m.titel.getD "",
                  context :=
                    searchContext (extract_text_from_norm nm) term idx } =
                some r := h
            injection h3 with h4
            rw [← h4]

/-- C7 (confirmed): case-insensitive full-text search lowercases both the
term and the flattened norm text before substring matching (so
"handelsregister" finds "Handelsregister"); the context snippet is the
window from 100 characters before the match to 100 characters after its
end (clamped to the text), with an ellipsis on a side exactly when that
side was cut; one result is produced per matching norm, in document order,
with no cap, and every result's context comes from the first match index
in its norm's text. -/
theorem C7_fulltext_search :
    (search_term exDoc "handelsregister" false =
      [{ paragraph := "§ 8b", title := "Beteiligungen",
         context := "(1) Im Handelsregister steht es\n(2) Zweiter Absatz" }]) ∧
    (∀ (term text : String) (idx : Nat),
      (searchContext text term idx).data =
        (if 0 < idx - 100 then ("...").data else []) ++
          pySlice text.toList (idx - 100)
            (min text.length (idx + term.length + 100)) ++
          (if idx + term.length + 100 < text.length then ("...").data
           else []) ∧
      (pySlice text.toList (idx - 100)
          (min text.length (idx + term.length + 100))).length ≤
        100 + term.length + 100) ∧
    (∀ (d : Dokumente) (term : String),
      (search_term d term false).length =
        (d.get_paragraphen.filter (searchHit term)).length) ∧
    (∀ (d : Dokumente) (term : String) (r : SearchResult),
      r ∈ search_term d term false →
        ∃ nm, nm ∈ d.get_paragraphen ∧ searchHit term nm = true ∧
          ∃ idx, findSub (pyLower (extract_text_from_norm nm)).toList
              (pyLower term).toList = some idx ∧
            r.context = searchContext (extract_text_from_norm nm) term idx) := by
  refine ⟨by decide, ?_, ?_, ?_⟩
  · intro term text idx
    constructor
    · unfold searchContext
      by_cases h1 : 0 < idx - 100 <;>
        by_cases h2 : idx + term.length + 100 < text.length <;>
          simp [h1, h2, String.data_append, List.asString]
    · unfold pySlice
      simp only [List.length_take, List.length_drop]
      omega
  · intro d term
    show (d.get_paragraphen.filterMap
        (normSearchResult term (pyLower term) false)).length = _
    exact filterMap_length_eq term d.get_paragraphen
  · intro d term r hr
    have hr' : r ∈ d.get_paragraphen.filterMap
        (normSearchResult term (pyLower term) false) := hr
    rw [List.mem_filterMap] at hr'
    obtain ⟨nm, hnm, hsome⟩ := hr'
    have hhit : searchHit term nm = true := by
      rw [← normSearchResult_isSome, hsome]
      rfl
    exact ⟨nm, hnm, hhit, normSearchResult_context term nm r hsome⟩

theorem C7_fulltext_search_witness :
    ∃ nm, nm ∈ exDoc.get_paragraphen ∧ searchHit "handelsregister" nm = true ∧
      ∃ idx, findSub (pyLower (extract_text_from_norm nm)).toList
          (pyLower "handelsregister").toList = some idx ∧
        ("(1) Im Handelsregister steht es\n(2) Zweiter Absatz" : String) =
          searchContext (extract_text_from_norm nm) "handelsregister" idx :=
  C7_fulltext_search.2.2.2 exDoc "handelsregister"
    { paragraph := "§ 8b", title := "Beteiligungen",
      context := "(1) Im Handelsregister steht es\n(2) Zweiter Absatz" }
    (by decide)

theorem C10_nonnumeric_section_raises_witness :
    ∃ r, find_paragraph_section exDoc1 "KStG" "1" "2" = .ok r :=
  C10_nonnumeric_section_raises.2 exDoc1 "KStG" "1" "2" 2 rfl

end Gesetzessuche
